import Mathlib

set_option autoImplicit false

/-!
Verification of the tray-bright brightness coordinator.

This file gives a shallow embedding of the coordinator worker loop of
`src/ui.rs` together with the platform monitor operations of
`src/platform/linux.rs` and `src/platform/windows.rs`, and proves the
behavioural properties of the specification against it.

Time is modelled as natural-number milliseconds; `Instant::elapsed` is
`now - t` (saturating, like Rust's `Instant`).  Hardware is modelled by
explicit oracles: a `SetHw` record per `set_brightness` call and an
`Option (Nat × Nat)` per `poll_brightness_values` call (`none` meaning
the call fails).  Rust panics from out-of-bounds indexing are modelled
by `Option`-valued steps returning `none`.
-/

namespace TrayBright

/-- `DEFAULT_BRIGHTNESS` constant from `src/ui.rs`. -/
def DEFAULT_BRIGHTNESS : Nat := 0

/-- `USER_COOLDOWN` from `src/ui.rs` (4 seconds), in milliseconds. -/
def USER_COOLDOWN : Nat := 4000

/-- `POLL_INTERVAL` from `src/ui.rs` (5 seconds), in milliseconds. -/
def POLL_INTERVAL : Nat := 5000

/-- `CMD_CHECK_INTERVAL` from `src/ui.rs` (100 ms). -/
def CMD_CHECK_INTERVAL : Nat := 100

/-- Rust `u32::clamp(self, min, max)` on naturals. -/
def rustClamp (v lo hi : Nat) : Nat :=
  if v < lo then lo else if hi < v then hi else v

/-- `MonitorBackend` from `src/platform/linux.rs`: laptop backlight via
sysfs, or an external DDC/CI monitor driven through ddcutil. -/
inductive MonitorBackend where
  | backlight (path : String)
  | ddc (displayNumber : Nat)
deriving DecidableEq, Repr

/-- `Monitor` from `src/platform/linux.rs`. -/
structure Monitor where
  name : String
  min_brightness : Option Nat
  current_brightness : Option Nat
  max_brightness : Option Nat
  backend : MonitorBackend
deriving DecidableEq, Repr

/-- Hardware oracle for one `Monitor::set_brightness` call: the result of
reading `max_brightness` from sysfs (backlight backend only; `none` means
the read or parse failed) and whether the final write/ddcutil call
succeeds. -/
structure SetHw where
  backlightMaxRaw : Option Nat
  writeOk : Bool
deriving DecidableEq, Repr

/-- Result of one `Monitor::set_brightness` call: the (possibly updated)
monitor, the value handed to the backend write if one was attempted, and
whether the call returned `Ok`. -/
structure SetOutcome where
  monitor : Monitor
  hwAttempt : Option Nat
  ok : Bool
deriving DecidableEq, Repr

/-- `Monitor::set_brightness` from `src/platform/linux.rs`: clamp the
value to the cached bounds (defaults 0 and 100), then for the backlight
backend convert to the raw device range `clamped * max_raw / 100` and
write it, or for the DDC backend pass the clamped value to
`ddcutil setvcp`.  On success the cached current brightness becomes the
clamped value. -/
def Monitor.set_brightness (m : Monitor) (value : Nat) (hw : SetHw) : SetOutcome :=
  let mx := m.max_brightness.getD 100
  let mn := m.min_brightness.getD 0
  let clamped := rustClamp value mn mx
  match m.backend with
  | MonitorBackend.backlight _ =>
      match hw.backlightMaxRaw with
      | none => ⟨m, none, false⟩
      | some maxRaw =>
          let raw := clamped * maxRaw / 100
          if hw.writeOk then
            ⟨{ m with current_brightness := some clamped }, some raw, true⟩
          else ⟨m, some raw, false⟩
  | MonitorBackend.ddc _ =>
      if hw.writeOk then
        ⟨{ m with current_brightness := some clamped }, some clamped, true⟩
      else ⟨m, some clamped, false⟩

/-- `Monitor::poll_brightness_values` from `src/platform/linux.rs`.  The
oracle supplies, for the backlight backend, the raw `max_brightness` and
`brightness` sysfs readings, and for the DDC backend the current and max
values parsed from `ddcutil getvcp`; `none` means the call failed.  On
success the cached fields are refreshed and `(current, min, max)` is
returned. -/
def Monitor.poll_brightness_values (m : Monitor) (hw : Option (Nat × Nat)) :
    Option (Monitor × Nat × Nat × Nat) :=
  match hw with
  | none => none
  | some (a, b) =>
      match m.backend with
      | MonitorBackend.backlight _ =>
          let current := if 0 < a then b * 100 / a else 0
          some ({ m with min_brightness := some 0, current_brightness := some current,
                         max_brightness := some 100 }, current, 0, 100)
      | MonitorBackend.ddc _ =>
          some ({ m with min_brightness := some 0, current_brightness := some a,
                         max_brightness := some b }, a, 0, b)

/-- `get_monitors` from `src/platform/linux.rs`: backlight discoveries
followed by DDC discoveries; an error is returned exactly when the
combined list is empty. -/
def get_monitors (backlights ddcs : List Monitor) : Option (List Monitor) :=
  let monitors := backlights ++ ddcs
  if monitors.isEmpty then none else some monitors

/-- `cleanup_monitors` from `src/platform/linux.rs` (a no-op on Linux;
releases native handles on Windows).  Modelled as the identity on the
monitor list; the worker records how many times it was invoked. -/
def cleanup_monitors (monitors : List Monitor) : List Monitor := monitors

/-- `WinMonitor` from `src/platform/windows.rs` (the cached brightness
fields; the native handle is external). -/
structure WinMonitor where
  name : String
  min_brightness : Option Nat
  current_brightness : Option Nat
  max_brightness : Option Nat
deriving DecidableEq, Repr

/-- `WinMonitor::set_brightness` from `src/platform/windows.rs`: clamp to
the cached bounds (defaults 0 and 100) and hand exactly the clamped value
to `SetMonitorBrightness`.  Returns the updated monitor on success
(`none` on failure) paired with the value passed to the hardware call. -/
def WinMonitor.set_brightness (m : WinMonitor) (value : Nat) (hwOk : Bool) :
    Option WinMonitor × Nat :=
  let mx := m.max_brightness.getD 100
  let mn := m.min_brightness.getD 0
  let clamped := rustClamp value mn mx
  if hwOk then (some { m with current_brightness := some clamped }, clamped)
  else (none, clamped)

/-- `MonitorCmd::SetBrightness(index, value)` from `src/ui.rs`. -/
structure MonitorCmd where
  index : Nat
  value : Nat
deriving DecidableEq, Repr

/-- `MonitorUpdate` from `src/ui.rs`. -/
structure MonitorUpdate where
  index : Nat
  brightness : Nat
deriving DecidableEq, Repr

/-- State owned by the worker thread in `src/ui.rs`: the monitors, the
per-device write cooldown timestamps, and `last_poll`. -/
structure WorkerState where
  monitors : List Monitor
  cooldowns : List (Option Nat)
  lastPoll : Nat
deriving DecidableEq, Repr

/-- Output of one iteration of the worker loop: the successor state, the
echo Updates sent after applying commands, the poll-derived Updates, the
`set_brightness` invocations (index, raw commanded argument), the backend
write attempts (index, value handed to the backend), the indices polled,
how many times `cleanup_monitors` ran, and whether the loop returned. -/
structure StepOut where
  state : WorkerState
  echoes : List MonitorUpdate
  pollUpdates : List MonitorUpdate
  setCalls : List (Nat × Nat)
  hwWrites : List (Nat × Nat)
  polls : List Nat
  cleanups : Nat
  terminated : Bool
deriving DecidableEq, Repr

/-- All Updates emitted by one worker iteration, in emission order. -/
def StepOut.updates (o : StepOut) : List MonitorUpdate :=
  o.echoes ++ o.pollUpdates

/-- The drain loop of the visible branch (`src/ui.rs` lines 111-122):
fold every queued command into the per-device pending table, later values
overwriting earlier ones.  Returns `none` when a command's index is out
of range for the table (a Rust panic). -/
def drainCommands : List MonitorCmd → List (Option Nat) → Option (List (Option Nat))
  | [], pending => some pending
  | c :: rest, pending =>
      if c.index < pending.length then
        drainCommands rest (pending.set c.index (some c.value))
      else none

/-- Latest queued value for a device within one drain: the value of the
last command for `idx` in the list, if any. -/
def lastFor (idx : Nat) : List MonitorCmd → Option Nat
  | [] => none
  | c :: rest =>
      match lastFor idx rest with
      | some v => some v
      | none => if c.index = idx then some c.value else none

/-- Output of the apply loop of the visible branch. -/
structure ApplyOut where
  monitors : List Monitor
  cooldowns : List (Option Nat)
  echoes : List MonitorUpdate
  setCalls : List (Nat × Nat)
  hwWrites : List (Nat × Nat)
deriving DecidableEq, Repr

/-- The apply loop (`src/ui.rs` lines 130-139): for each device with a
pending value, call `set_brightness` (errors ignored), restart the
device's cooldown at `now`, and unconditionally send the echo Update
carrying the pending value.  `i` is the index of the first slot. -/
def applyAux (now : Nat) (setHw : Nat → SetHw) :
    Nat → List Monitor → List (Option Nat) → List (Option Nat) → ApplyOut
  | _, ms, cds, [] => ⟨ms, cds, [], [], []⟩
  | _, [], cds, _ :: _ => ⟨[], cds, [], [], []⟩
  | _, m :: ms, [], _ :: _ => ⟨m :: ms, [], [], [], []⟩
  | i, m :: ms, cd :: cds, p :: ps =>
      let rest := applyAux now setHw (i + 1) ms cds ps
      match p with
      | none =>
          { rest with monitors := m :: rest.monitors, cooldowns := cd :: rest.cooldowns }
      | some v =>
          let out := m.set_brightness v (setHw i)
          { monitors := out.monitor :: rest.monitors,
            cooldowns := some now :: rest.cooldowns,
            echoes := ⟨i, v⟩ :: rest.echoes,
            setCalls := (i, v) :: rest.setCalls,
            hwWrites := (match out.hwAttempt with
                         | some w => [(i, w)]
                         | none => []) ++ rest.hwWrites }

/-- Output of the poll loop of the visible branch. -/
structure PollOut where
  monitors : List Monitor
  cooldowns : List (Option Nat)
  pollUpdates : List MonitorUpdate
  polls : List Nat
deriving DecidableEq, Repr

/-- One device of the poll loop body once the cooldown gate has been
passed: attempt the hardware poll; on success emit an Update with the
current brightness, on failure emit nothing. -/
def pollDevice (i : Nat) (m : Monitor) (hw : Option (Nat × Nat)) :
    Monitor × List MonitorUpdate :=
  match m.poll_brightness_values hw with
  | some r => (r.1, [⟨i, r.2.1⟩])
  | none => (m, [])

/-- The poll loop (`src/ui.rs` lines 144-158): skip a device entirely
while its cooldown is younger than `USER_COOLDOWN`; clear an expired
cooldown and fall through to the hardware poll. -/
def pollAux (now : Nat) (pollHw : Nat → Option (Nat × Nat)) :
    Nat → List Monitor → List (Option Nat) → PollOut
  | _, [], cds => ⟨[], cds, [], []⟩
  | _, m :: ms, [] => ⟨m :: ms, [], [], []⟩
  | i, m :: ms, cd :: cds =>
      let rest := pollAux now pollHw (i + 1) ms cds
      match cd with
      | some t =>
          if now - t < USER_COOLDOWN then
            { rest with monitors := m :: rest.monitors,
                        cooldowns := some t :: rest.cooldowns }
          else
            let pr := pollDevice i m (pollHw i)
            { monitors := pr.1 :: rest.monitors,
              cooldowns := none :: rest.cooldowns,
              pollUpdates := pr.2 ++ rest.pollUpdates,
              polls := i :: rest.polls }
      | none =>
          let pr := pollDevice i m (pollHw i)
          { monitors := pr.1 :: rest.monitors,
            cooldowns := none :: rest.cooldowns,
            pollUpdates := pr.2 ++ rest.pollUpdates,
            polls := i :: rest.polls }

/-- One visible iteration of the worker loop (`src/ui.rs` lines 106-162):
drain the whole queue into the pending table; on observed disconnection
clean up and return; otherwise apply the pending values and, when
`POLL_INTERVAL` has elapsed since `last_poll`, run the poll loop and
reset `last_poll`.  `none` models an out-of-bounds panic in the drain. -/
def visibleCycle (st : WorkerState) (now : Nat) (cmds : List MonitorCmd)
    (disconnected : Bool) (setHw : Nat → SetHw)
    (pollHw : Nat → Option (Nat × Nat)) : Option StepOut :=
  match drainCommands cmds (List.replicate st.monitors.length none) with
  | none => none
  | some pending =>
      if disconnected then
        some { state := { st with monitors := cleanup_monitors st.monitors },
               echoes := [], pollUpdates := [], setCalls := [], hwWrites := [],
               polls := [], cleanups := 1, terminated := true }
      else
        let ap := applyAux now setHw 0 st.monitors st.cooldowns pending
        if POLL_INTERVAL ≤ now - st.lastPoll then
          let po := pollAux now pollHw 0 ap.monitors ap.cooldowns
          some { state := ⟨po.monitors, po.cooldowns, now⟩,
                 echoes := ap.echoes, pollUpdates := po.pollUpdates,
                 setCalls := ap.setCalls, hwWrites := ap.hwWrites,
                 polls := po.polls, cleanups := 0, terminated := false }
        else
          some { state := ⟨ap.monitors, ap.cooldowns, st.lastPoll⟩,
                 echoes := ap.echoes, pollUpdates := [], setCalls := ap.setCalls,
                 hwWrites := ap.hwWrites, polls := [], cleanups := 0,
                 terminated := false }

/-- What `rx_cmd.recv_timeout` observed in the hidden branch. -/
inductive RecvResult where
  | cmd (c : MonitorCmd)
  | timeout
  | disconnected
deriving DecidableEq, Repr

/-- One hidden iteration of the worker loop (`src/ui.rs` lines 87-103):
block on the queue; a received command is applied immediately (set, start
cooldown, unconditional echo) with no polling; a timeout does nothing;
disconnection triggers cleanup and return.  `none` models the
out-of-bounds panic on `monitors[idx]`. -/
def hiddenStep (st : WorkerState) (now : Nat) (recv : RecvResult)
    (setHw : Nat → SetHw) : Option StepOut :=
  match recv with
  | RecvResult.cmd c =>
      if h : c.index < st.monitors.length then
        let out := (st.monitors.get ⟨c.index, h⟩).set_brightness c.value (setHw c.index)
        some { state := ⟨st.monitors.set c.index out.monitor,
                         st.cooldowns.set c.index (some now), st.lastPoll⟩,
               echoes := [⟨c.index, c.value⟩], pollUpdates := [],
               setCalls := [(c.index, c.value)],
               hwWrites := match out.hwAttempt with
                           | some w => [(c.index, w)]
                           | none => [],
               polls := [], cleanups := 0, terminated := false }
      else none
  | RecvResult.timeout =>
      some { state := st, echoes := [], pollUpdates := [], setCalls := [],
             hwWrites := [], polls := [], cleanups := 0, terminated := false }
  | RecvResult.disconnected =>
      some { state := { st with monitors := cleanup_monitors st.monitors },
             echoes := [], pollUpdates := [], setCalls := [], hwWrites := [],
             polls := [], cleanups := 1, terminated := true }

/-- Environment of one worker iteration: the visibility flag read at the
top of the loop, what the hidden-branch receive observed, the queue
contents and disconnection status seen by the visible-branch drain, the
current time, and the hardware oracles. -/
structure StepInput where
  visible : Bool
  now : Nat
  recv : RecvResult
  cmds : List MonitorCmd
  disconnected : Bool
  setHw : Nat → SetHw
  pollHw : Nat → Option (Nat × Nat)

/-- One iteration of the worker loop: hidden or visible branch according
to the flag. -/
def workerStep (st : WorkerState) (inp : StepInput) : Option StepOut :=
  if inp.visible then
    visibleCycle st inp.now inp.cmds inp.disconnected inp.setHw inp.pollHw
  else hiddenStep st inp.now inp.recv inp.setHw

/-- Run the worker loop over a list of iteration environments, stopping
as soon as an iteration returns (terminates).  Produces the trace of
iteration outputs; `none` models a panic. -/
def runWorker (st : WorkerState) : List StepInput → Option (List StepOut)
  | [] => some []
  | inp :: rest =>
      match workerStep st inp with
      | none => none
      | some o =>
          if o.terminated then some [o]
          else
            match runWorker o.state rest with
            | none => none
            | some trace => some (o :: trace)

/-- Whether an iteration environment reports queue disconnection to the
branch that will actually run. -/
def signalsDisconnect (inp : StepInput) : Bool :=
  if inp.visible then inp.disconnected
  else inp.recv == RecvResult.disconnected

/-- Presentation-side state from `src/ui.rs`: displayed brightness per
device and per-device interaction cooldowns. -/
structure UIState where
  brightness_values : List Nat
  user_cooldowns : List (Option Nat)
deriving DecidableEq, Repr

/-- One Update drained by `build_ui` (`src/ui.rs` lines 197-203): the
Update is discarded while the device's interaction cooldown is younger
than `USER_COOLDOWN`; otherwise the displayed value is overwritten. -/
def applyUpdate (now : Nat) (st : UIState) (u : MonitorUpdate) : UIState :=
  let suppressed : Bool :=
    match st.user_cooldowns.getD u.index none with
    | some t => decide (now - t < USER_COOLDOWN)
    | none => false
  if suppressed then st
  else { st with brightness_values := st.brightness_values.set u.index u.brightness }

/-- The whole `while let Ok(update) = rx_update.try_recv()` drain of
`build_ui`, applied to the Updates received this frame. -/
def applyUpdates (now : Nat) (st : UIState) (us : List MonitorUpdate) : UIState :=
  us.foldl (applyUpdate now) st

/-- Commands sent by one `build_ui` frame (`src/ui.rs` lines 205-234):
the slider loop runs over `0..monitor_names.len()` and sends
`SetBrightness(i, cur)` for each slider whose drag stopped this frame
(`released i = some cur`). -/
def uiFrameCommands (count : Nat) (released : Nat → Option Nat) : List MonitorCmd :=
  (List.range count).filterMap fun i => (released i).map fun v => ⟨i, v⟩

/-- Snapshot produced by `TrayBrightUI::new` before the worker thread
starts, together with the worker's initial state. -/
structure InitUI where
  monitor_names : List String
  brightness_values : List Nat
  min_max : List (Nat × Nat)
  worker : WorkerState
deriving DecidableEq, Repr

/-- The startup polling loop of `TrayBrightUI::new` (`src/ui.rs` lines
64-74): poll each monitor once, substituting `DEFAULT_BRIGHTNESS` for all
three values when the poll fails. -/
def initPollAux (hw : Nat → Option (Nat × Nat)) :
    Nat → List Monitor → InitUI
  | _, [] => ⟨[], [], [], ⟨[], [], 0⟩⟩
  | i, m :: ms =>
      let pr :=
        match m.poll_brightness_values (hw i) with
        | some r => r
        | none => (m, DEFAULT_BRIGHTNESS, DEFAULT_BRIGHTNESS, DEFAULT_BRIGHTNESS)
      let rest := initPollAux hw (i + 1) ms
      ⟨m.name :: rest.monitor_names, pr.2.1 :: rest.brightness_values,
       (pr.2.2.1, pr.2.2.2) :: rest.min_max,
       ⟨pr.1 :: rest.worker.monitors, [], 0⟩⟩

/-- `TrayBrightUI::new` (`src/ui.rs` lines 54-77): enumerate monitors —
propagating the enumeration error, in which case no worker state is ever
built and no worker thread is spawned — then take the startup snapshot
and assemble the worker's initial state (all cooldowns `None`,
`last_poll` = construction time). -/
def TrayBrightUI.new (backlights ddcs : List Monitor)
    (hw : Nat → Option (Nat × Nat)) (now0 : Nat) : Option InitUI :=
  match get_monitors backlights ddcs with
  | none => none
  | some ms =>
      let r := initPollAux hw 0 ms
      some { monitor_names := r.monitor_names,
             brightness_values := r.brightness_values,
             min_max := r.min_max,
             worker := ⟨r.worker.monitors,
                        List.replicate r.worker.monitors.length none, now0⟩ }

theorem USER_COOLDOWN_pos : 0 < USER_COOLDOWN := by decide

theorem drainCommands_length {cmds : List MonitorCmd} {pending p : List (Option Nat)}
    (h : drainCommands cmds pending = some p) : p.length = pending.length := by
  induction cmds generalizing pending with
  | nil =>
      simp only [drainCommands, Option.some.injEq] at h
      subst h; rfl
  | cons c rest ih =>
      simp only [drainCommands] at h
      split at h
      · have := ih h
        simpa [List.length_set] using this
      · exact absurd h (by simp)

theorem drainCommands_isSome {cmds : List MonitorCmd} {pending : List (Option Nat)}
    (h : ∀ c ∈ cmds, c.index < pending.length) :
    (drainCommands cmds pending).isSome = true := by
  induction cmds generalizing pending with
  | nil => simp [drainCommands]
  | cons c rest ih =>
      simp only [drainCommands]
      rw [if_pos (h c (by simp))]
      exact ih fun d hd => by
        rw [List.length_set]; exact h d (List.mem_cons_of_mem c hd)

theorem drainCommands_getElem {cmds : List MonitorCmd} {pending p : List (Option Nat)}
    {idx : Nat} {slot : Option Nat}
    (h : drainCommands cmds pending = some p) (hs : pending[idx]? = some slot) :
    p[idx]? = some (match lastFor idx cmds with
                    | some v => some v
                    | none => slot) := by
  induction cmds generalizing pending slot with
  | nil =>
      simp only [drainCommands, Option.some.injEq] at h
      subst h
      simpa [lastFor] using hs
  | cons c rest ih =>
      simp only [drainCommands] at h
      split at h
      case isTrue hlt =>
        by_cases hc : c.index = idx
        · subst hc
          have hset : (pending.set c.index (some c.value))[c.index]? = some (some c.value) := by
            rw [List.getElem?_set]
            simp [hlt]
          have := ih h hset
          rw [this]
          simp only [lastFor]
          cases lastFor c.index rest <;> simp
        · have hset : (pending.set c.index (some c.value))[idx]? = some slot := by
            rw [List.getElem?_set_ne hc]
            exact hs
          have := ih h hset
          rw [this]
          simp only [lastFor]
          cases lastFor idx rest <;> simp [hc]
      case isFalse => exact absurd h (by simp)

theorem lastFor_mem {idx : Nat} {cmds : List MonitorCmd} {v : Nat}
    (h : lastFor idx cmds = some v) : (⟨idx, v⟩ : MonitorCmd) ∈ cmds := by
  induction cmds with
  | nil => simp [lastFor] at h
  | cons c rest ih =>
      simp only [lastFor] at h
      cases hr : lastFor idx rest with
      | some w =>
          rw [hr] at h
          simp only [Option.some.injEq] at h
          subst h
          exact List.mem_cons_of_mem c (ih hr)
      | none =>
          rw [hr] at h
          by_cases hidx : c.index = idx

          · rw [if_pos hidx] at h
            simp only [Option.some.injEq] at h
            cases c with
            | mk ci cv =>
                simp only at hidx h
                subst hidx; subst h
                exact List.mem_cons_self _ _
          · rw [if_neg hidx] at h
            exact absurd h (by simp)

theorem filter_key_eq_nil {α : Type} (f : α → Nat) {l : List α} {i j : Nat} (hj : j < i)
    (h : ∀ u ∈ l, i ≤ f u) : l.filter (fun u => f u == j) = [] := by
  rw [List.filter_eq_nil_iff]
  intro u hu
  simp only [beq_iff_eq]
  exact fun he => absurd (he ▸ h u hu) (by omega)

theorem applyAux_monitors_length (now : Nat) (setHw : Nat → SetHw) :
    ∀ (i : Nat) (ms : List Monitor) (cds ps : List (Option Nat)),
      (applyAux now setHw i ms cds ps).monitors.length = ms.length := by
  intro i ms cds ps
  induction ps generalizing i ms cds with
  | nil => simp [applyAux]
  | cons p ps ih =>
      cases ms with
      | nil => simp [applyAux]
      | cons m ms =>
          cases cds with
          | nil => simp [applyAux]
          | cons cd cds =>
              cases p with
              | none => simp [applyAux, ih]
              | some v => simp [applyAux, ih]

theorem applyAux_cooldowns_length (now : Nat) (setHw : Nat → SetHw) :
    ∀ (i : Nat) (ms : List Monitor) (cds ps : List (Option Nat)),
      (applyAux now setHw i ms cds ps).cooldowns.length = cds.length := by
  intro i ms cds ps
  induction ps generalizing i ms cds with
  | nil => simp [applyAux]
  | cons p ps ih =>
      cases ms with
      | nil => simp [applyAux]
      | cons m ms =>
          cases cds with
          | nil => simp [applyAux]
          | cons cd cds =>
              cases p with
              | none => simp [applyAux, ih]
              | some v => simp [applyAux, ih]

theorem applyAux_index_ge (now : Nat) (setHw : Nat → SetHw) :
    ∀ (i : Nat) (ms : List Monitor) (cds ps : List (Option Nat)),
      (∀ u ∈ (applyAux now setHw i ms cds ps).echoes, i ≤ u.index) ∧
      (∀ s ∈ (applyAux now setHw i ms cds ps).setCalls, i ≤ s.1) ∧
      (∀ s ∈ (applyAux now setHw i ms cds ps).hwWrites, i ≤ s.1) := by
  intro i ms cds ps
  induction ps generalizing i ms cds with
  | nil => simp [applyAux]
  | cons p ps ih =>
      cases ms with
      | nil => simp [applyAux]
      | cons m ms =>
          cases cds with
          | nil => simp [applyAux]
          | cons cd cds =>
              obtain ⟨ihe, ihs, ihw⟩ := ih (i + 1) ms cds
              cases p with
              | none =>
                  refine ⟨?_, ?_, ?_⟩ <;> simp only [applyAux] <;>
                    intro u hu
                  · exact Nat.le_of_succ_le (ihe u hu)
                  · exact Nat.le_of_succ_le (ihs u hu)
                  · exact Nat.le_of_succ_le (ihw u hu)
              | some v =>
                  refine ⟨?_, ?_, ?_⟩ <;> simp only [applyAux] <;>
                    intro u hu
                  · rcases List.mem_cons.mp hu with h | h
                    · subst h; exact Nat.le_refl i
                    · exact Nat.le_of_succ_le (ihe u h)
                  · rcases List.mem_cons.mp hu with h | h
                    · subst h; exact Nat.le_refl i
                    · exact Nat.le_of_succ_le (ihs u h)
                  · rcases List.mem_append.mp hu with h | h
                    · cases hh : (Monitor.set_brightness m v (setHw i)).hwAttempt with
                      | none => rw [hh] at h; simp at h
                      | some w =>
                          rw [hh] at h
                          simp only [List.mem_singleton] at h
                          subst h; exact Nat.le_refl i
                    · exact Nat.le_of_succ_le (ihw u h)

theorem filter_cons_true {α : Type} (p : α → Bool) (x : α) (l : List α) (h : p x = true) :
    (x :: l).filter p = x :: l.filter p := by
  simp [List.filter_cons, h]

theorem filter_cons_false {α : Type} (p : α → Bool) (x : α) (l : List α) (h : p x = false) :
    (x :: l).filter p = l.filter p := by
  simp [List.filter_cons, h]

theorem applyAux_echoes_filter (now : Nat) (setHw : Nat → SetHw) :
    ∀ (i : Nat) (ms : List Monitor) (cds ps : List (Option Nat)) (j : Nat),
      ms.length = ps.length → cds.length = ps.length →
      (applyAux now setHw i ms cds ps).echoes.filter (fun u => u.index == i + j) =
        (match ps[j]? with
         | some (some v) => [⟨i + j, v⟩]
         | some none => []
         | none => []) := by
  intro i ms cds ps j hm hc
  induction ps generalizing i ms cds j with
  | nil => simp [applyAux]
  | cons p ps ih =>
      cases ms with
      | nil => simp at hm
      | cons m ms =>
          cases cds with
          | nil => simp at hc
          | cons cd cds =>
              simp only [List.length_cons, Nat.succ.injEq] at hm hc
              cases p with
              | none =>
                  cases j with
                  | zero =>
                      simp only [applyAux, List.getElem?_cons_zero, Nat.add_zero]
                      exact filter_key_eq_nil _ (Nat.lt_succ_self i)
                        (applyAux_index_ge now setHw (i + 1) ms cds ps).1
                  | succ j =>
                      have harith : i + (j + 1) = (i + 1) + j := by omega
                      simp only [applyAux, List.getElem?_cons_succ, harith]
                      exact ih (i + 1) ms cds j hm hc
              | some v =>
                  cases j with
                  | zero =>
                      simp only [applyAux, List.getElem?_cons_zero, Nat.add_zero]
                      rw [filter_cons_true _ _ _ (by simp),
                        filter_key_eq_nil _ (Nat.lt_succ_self i)
                          (applyAux_index_ge now setHw (i + 1) ms cds ps).1]
                  | succ j =>
                      have harith : i + (j + 1) = (i + 1) + j := by omega
                      rw [harith]
                      simp only [applyAux, List.getElem?_cons_succ]
                      rw [filter_cons_false _ _ _
                        (by simp only [beq_eq_false_iff_ne]; show i ≠ (i + 1) + j; omega)]
                      exact ih (i + 1) ms cds j hm hc

theorem applyAux_setCalls_filter (now : Nat) (setHw : Nat → SetHw) :
    ∀ (i : Nat) (ms : List Monitor) (cds ps : List (Option Nat)) (j : Nat),
      ms.length = ps.length → cds.length = ps.length →
      (applyAux now setHw i ms cds ps).setCalls.filter (fun s => s.1 == i + j) =
        (match ps[j]? with
         | some (some v) => [(i + j, v)]
         | some none => []
         | none => []) := by
  intro i ms cds ps j hm hc
  induction ps generalizing i ms cds j with
  | nil => simp [applyAux]
  | cons p ps ih =>
      cases ms with
      | nil => simp at hm
      | cons m ms =>
          cases cds with
          | nil => simp at hc
          | cons cd cds =>
              simp only [List.length_cons, Nat.succ.injEq] at hm hc
              cases p with
              | none =>
                  cases j with
                  | zero =>
                      simp only [applyAux, List.getElem?_cons_zero, Nat.add_zero]
                      exact filter_key_eq_nil _ (Nat.lt_succ_self i)
                        (applyAux_index_ge now setHw (i + 1) ms cds ps).2.1
                  | succ j =>
                      have harith : i + (j + 1) = (i + 1) + j := by omega
                      simp only [applyAux, List.getElem?_cons_succ, harith]
                      exact ih (i + 1) ms cds j hm hc
              | some v =>
                  cases j with
                  | zero =>
                      simp only [applyAux, List.getElem?_cons_zero, Nat.add_zero]
                      rw [filter_cons_true _ _ _ (by simp),
                        filter_key_eq_nil _ (Nat.lt_succ_self i)
                          (applyAux_index_ge now setHw (i + 1) ms cds ps).2.1]
                  | succ j =>
                      have harith : i + (j + 1) = (i + 1) + j := by omega
                      rw [harith]
                      simp only [applyAux, List.getElem?_cons_succ]
                      rw [filter_cons_false _ _ _
                        (by simp only [beq_eq_false_iff_ne]; show i ≠ (i + 1) + j; omega)]
                      exact ih (i + 1) ms cds j hm hc

theorem applyAux_hwWrites_filter (now : Nat) (setHw : Nat → SetHw) :
    ∀ (i : Nat) (ms : List Monitor) (cds ps : List (Option Nat)) (j : Nat) (m0 : Monitor),
      ms.length = ps.length → cds.length = ps.length → ms[j]? = some m0 →
      (applyAux now setHw i ms cds ps).hwWrites.filter (fun s => s.1 == i + j) =
        (match ps[j]? with
         | some (some v) =>
             (match (m0.set_brightness v (setHw (i + j))).hwAttempt with
              | some w => [(i + j, w)]
              | none => [])
         | some none => []
         | none => []) := by
  intro i ms cds ps j m0 hm hc hm0
  induction ps generalizing i ms cds j with
  | nil =>
      have : ms = [] := List.length_eq_zero.mp hm
      subst this
      simp at hm0
  | cons p ps ih =>
      cases ms with
      | nil => simp at hm
      | cons m ms =>
          cases cds with
          | nil => simp at hc
          | cons cd cds =>
              simp only [List.length_cons, Nat.succ.injEq] at hm hc
              cases p with
              | none =>
                  cases j with
                  | zero =>
                      simp only [applyAux, List.getElem?_cons_zero, Nat.add_zero]
                      exact filter_key_eq_nil _ (Nat.lt_succ_self i)
                        (applyAux_index_ge now setHw (i + 1) ms cds ps).2.2
                  | succ j =>
                      simp only [List.getElem?_cons_succ] at hm0
                      have harith : i + (j + 1) = (i + 1) + j := by omega
                      rw [harith]
                      simp only [applyAux, List.getElem?_cons_succ]
                      exact ih (i + 1) ms cds j hm hc hm0
              | some v =>
                  cases j with
                  | zero =>
                      simp only [List.getElem?_cons_zero, Option.some.injEq] at hm0
                      subst hm0
                      simp only [applyAux, List.getElem?_cons_zero, Nat.add_zero,
                        List.filter_append]
                      rw [filter_key_eq_nil _ (Nat.lt_succ_self i)
                        (applyAux_index_ge now setHw (i + 1) ms cds ps).2.2,
                        List.append_nil]
                      cases hh : (Monitor.set_brightness m v (setHw i)).hwAttempt with
                      | none => simp [hh]
                      | some w => simp [hh]
                  | succ j =>
                      simp only [List.getElem?_cons_succ] at hm0
                      have harith : i + (j + 1) = (i + 1) + j := by omega
                      rw [harith]
                      simp only [applyAux, List.getElem?_cons_succ, List.filter_append]
                      have hpre : (match (Monitor.set_brightness m v (setHw i)).hwAttempt with
                                   | some w => [(i, w)]
                                   | none => ([] : List (Nat × Nat))).filter
                                     (fun (s : Nat × Nat) => s.1 == (i + 1) + j) = [] := by
                        cases (Monitor.set_brightness m v (setHw i)).hwAttempt with
                        | none => simp
                        | some w =>
                            rw [filter_cons_false _ _ _
                              (by simp only [beq_eq_false_iff_ne]
                                  show i ≠ (i + 1) + j
                                  omega)]
                            rfl
                      rw [hpre, List.nil_append]
                      exact ih (i + 1) ms cds j hm hc hm0

theorem applyAux_cooldowns_getElem (now : Nat) (setHw : Nat → SetHw) :
    ∀ (i : Nat) (ms : List Monitor) (cds ps : List (Option Nat)) (j : Nat),
      ms.length = ps.length → cds.length = ps.length →
      (applyAux now setHw i ms cds ps).cooldowns[j]? =
        (match ps[j]? with
         | some (some _) => some (some now)
         | some none => cds[j]?
         | none => none) := by
  intro i ms cds ps j hm hc
  induction ps generalizing i ms cds j with
  | nil =>
      have : cds = [] := List.length_eq_zero.mp hc
      subst this
      simp [applyAux]
  | cons p ps ih =>
      cases ms with
      | nil => simp at hm
      | cons m ms =>
          cases cds with
          | nil => simp at hc
          | cons cd cds =>
              simp only [List.length_cons, Nat.succ.injEq] at hm hc
              cases p with
              | none =>
                  cases j with
                  | zero => simp [applyAux]
                  | succ j =>
                      simp only [applyAux, List.getElem?_cons_succ]
                      exact ih (i + 1) ms cds j hm hc
              | some v =>
                  cases j with
                  | zero => simp [applyAux]
                  | succ j =>
                      simp only [applyAux, List.getElem?_cons_succ]
                      exact ih (i + 1) ms cds j hm hc

theorem applyAux_monitors_getElem (now : Nat) (setHw : Nat → SetHw) :
    ∀ (i : Nat) (ms : List Monitor) (cds ps : List (Option Nat)) (j : Nat) (m0 : Monitor),
      ms.length = ps.length → cds.length = ps.length → ms[j]? = some m0 →
      (applyAux now setHw i ms cds ps).monitors[j]? =
        (match ps[j]? with
         | some (some v) => some ((m0.set_brightness v (setHw (i + j))).monitor)
         | some none => some m0
         | none => none) := by
  intro i ms cds ps j m0 hm hc hm0
  induction ps generalizing i ms cds j with
  | nil =>
      have : ms = [] := List.length_eq_zero.mp hm
      subst this
      simp at hm0
  | cons p ps ih =>
      cases ms with
      | nil => simp at hm
      | cons m ms =>
          cases cds with
          | nil => simp at hc
          | cons cd cds =>
              simp only [List.length_cons, Nat.succ.injEq] at hm hc
              cases p with
              | none =>
                  cases j with
                  | zero =>
                      simp only [List.getElem?_cons_zero, Option.some.injEq] at hm0
                      subst hm0
                      simp [applyAux]
                  | succ j =>
                      simp only [List.getElem?_cons_succ] at hm0
                      have harith : i + (j + 1) = (i + 1) + j := by omega
                      rw [harith]
                      simp only [applyAux, List.getElem?_cons_succ]
                      exact ih (i + 1) ms cds j hm hc hm0
              | some v =>
                  cases j with
                  | zero =>
                      simp only [List.getElem?_cons_zero, Option.some.injEq] at hm0
                      subst hm0
                      simp [applyAux]
                  | succ j =>
                      simp only [List.getElem?_cons_succ] at hm0
                      have harith : i + (j + 1) = (i + 1) + j := by omega
                      rw [harith]
                      simp only [applyAux, List.getElem?_cons_succ]
                      exact ih (i + 1) ms cds j hm hc hm0

theorem pollAux_monitors_length (now : Nat) (pollHw : Nat → Option (Nat × Nat)) :
    ∀ (i : Nat) (ms : List Monitor) (cds : List (Option Nat)),
      (pollAux now pollHw i ms cds).monitors.length = ms.length := by
  intro i ms cds
  induction ms generalizing i cds with
  | nil => simp [pollAux]
  | cons m ms ih =>
      cases cds with
      | nil => simp [pollAux]
      | cons cd cds =>
          cases cd with
          | none => simp [pollAux, ih]
          | some t =>
              by_cases ht : now - t < USER_COOLDOWN <;>
                simp [pollAux, ht, ih]

theorem pollAux_cooldowns_length (now : Nat) (pollHw : Nat → Option (Nat × Nat)) :
    ∀ (i : Nat) (ms : List Monitor) (cds : List (Option Nat)),
      (pollAux now pollHw i ms cds).cooldowns.length = cds.length := by
  intro i ms cds
  induction ms generalizing i cds with
  | nil => simp [pollAux]
  | cons m ms ih =>
      cases cds with
      | nil => simp [pollAux]
      | cons cd cds =>
          cases cd with
          | none => simp [pollAux, ih]
          | some t =>
              by_cases ht : now - t < USER_COOLDOWN <;>
                simp [pollAux, ht, ih]

theorem pollAux_index_ge (now : Nat) (pollHw : Nat → Option (Nat × Nat)) :
    ∀ (i : Nat) (ms : List Monitor) (cds : List (Option Nat)),
      (∀ u ∈ (pollAux now pollHw i ms cds).pollUpdates, i ≤ u.index) ∧
      (∀ k ∈ (pollAux now pollHw i ms cds).polls, i ≤ k) := by
  intro i ms cds
  induction ms generalizing i cds with
  | nil => simp [pollAux]
  | cons m ms ih =>
      cases cds with
      | nil => simp [pollAux]
      | cons cd cds =>
          obtain ⟨ihu, ihp⟩ := ih (i + 1) cds
          have hdev : ∀ u ∈ (pollDevice i m (pollHw i)).2, i ≤ u.index := by
            intro u hu
            revert hu
            unfold pollDevice
            cases m.poll_brightness_values (pollHw i) with
            | none => intro hu; simp at hu
            | some r =>
                intro hu
                simp only [List.mem_singleton] at hu
                subst hu
                exact Nat.le_refl i
          have hstep :
              (∀ u ∈ (pollDevice i m (pollHw i)).2 ++
                  (pollAux now pollHw (i + 1) ms cds).pollUpdates, i ≤ u.index) ∧
              (∀ k ∈ i :: (pollAux now pollHw (i + 1) ms cds).polls, i ≤ k) := by
            constructor
            · intro u hu
              rcases List.mem_append.mp hu with h | h
              · exact hdev u h
              · exact Nat.le_of_succ_le (ihu u h)
            · intro k hk
              rcases List.mem_cons.mp hk with h | h
              · exact h ▸ Nat.le_refl i
              · exact Nat.le_of_succ_le (ihp k h)
          cases cd with
          | none => simpa only [pollAux] using hstep
          | some t =>
              by_cases ht : now - t < USER_COOLDOWN
              · simp only [pollAux, if_pos ht]
                refine ⟨fun u hu => Nat.le_of_succ_le (ihu u hu),
                        fun k hk => Nat.le_of_succ_le (ihp k hk)⟩
              · simpa only [pollAux, if_neg ht] using hstep

theorem pollAux_cooldowns_getElem (now : Nat) (pollHw : Nat → Option (Nat × Nat)) :
    ∀ (i : Nat) (ms : List Monitor) (cds : List (Option Nat)) (j : Nat),
      ms.length = cds.length →
      (pollAux now pollHw i ms cds).cooldowns[j]? =
        (match cds[j]? with
         | some (some t) => some (if now - t < USER_COOLDOWN then some t else none)
         | some none => some none
         | none => none) := by
  intro i ms cds j hlen
  induction ms generalizing i cds j with
  | nil =>
      have : cds = [] := (List.length_eq_zero.mp hlen.symm)
      subst this
      simp [pollAux]
  | cons m ms ih =>
      cases cds with
      | nil => simp at hlen
      | cons cd cds =>
          simp only [List.length_cons, Nat.succ.injEq] at hlen
          cases cd with
          | none =>
              cases j with
              | zero => simp [pollAux]
              | succ j =>
                  simp only [pollAux, List.getElem?_cons_succ]
                  exact ih (i + 1) cds j hlen
          | some t =>
              by_cases ht : now - t < USER_COOLDOWN
              · cases j with
                | zero => simp [pollAux, ht]
                | succ j =>
                    simp only [pollAux, if_pos ht, List.getElem?_cons_succ]
                    exact ih (i + 1) cds j hlen
              · cases j with
                | zero => simp [pollAux, ht]
                | succ j =>
                    simp only [pollAux, if_neg ht, List.getElem?_cons_succ]
                    exact ih (i + 1) cds j hlen

theorem pollAux_updates_filter (now : Nat) (pollHw : Nat → Option (Nat × Nat)) :
    ∀ (i : Nat) (ms : List Monitor) (cds : List (Option Nat)) (j : Nat) (m0 : Monitor),
      ms.length = cds.length → ms[j]? = some m0 →
      (pollAux now pollHw i ms cds).pollUpdates.filter (fun u => u.index == i + j) =
        (match cds[j]? with
         | some (some t) =>
             if now - t < USER_COOLDOWN then [] else (pollDevice (i + j) m0 (pollHw (i + j))).2
         | some none => (pollDevice (i + j) m0 (pollHw (i + j))).2
         | none => []) := by
  intro i ms cds j m0 hlen hm0
  induction ms generalizing i cds j with
  | nil => simp at hm0
  | cons m ms ih =>
      cases cds with
      | nil => simp at hlen
      | cons cd cds =>
          simp only [List.length_cons, Nat.succ.injEq] at hlen
          have hdevfilter : ∀ k : Nat,
              (pollDevice k m (pollHw k)).2.filter (fun u => u.index == k) =
                (pollDevice k m (pollHw k)).2 := by
            intro k
            unfold pollDevice
            cases m.poll_brightness_values (pollHw k) with
            | none => simp
            | some r => simp
          cases j with
          | zero =>
              simp only [List.getElem?_cons_zero, Option.some.injEq] at hm0
              subst hm0
              have hrest := filter_key_eq_nil (fun (u : MonitorUpdate) => u.index)
                (Nat.lt_succ_self i) (pollAux_index_ge now pollHw (i + 1) ms cds).1
              cases cd with
              | none =>
                  simp only [pollAux, List.getElem?_cons_zero, Nat.add_zero,
                    List.filter_append, hrest, List.append_nil]
                  exact hdevfilter i
              | some t =>
                  by_cases ht : now - t < USER_COOLDOWN
                  · simp only [pollAux, if_pos ht, List.getElem?_cons_zero, Nat.add_zero,
                      if_pos ht]
                    exact hrest
                  · simp only [pollAux, if_neg ht, List.getElem?_cons_zero, Nat.add_zero,
                      List.filter_append, hrest, List.append_nil]
                    exact hdevfilter i
          | succ j =>
              simp only [List.getElem?_cons_succ] at hm0
              have harith : i + (j + 1) = (i + 1) + j := by omega
              rw [harith]
              have hdevnil : ∀ k : Nat, k < (i + 1) + j →
                  (pollDevice k m (pollHw k)).2.filter (fun u => u.index == (i + 1) + j)
                    = [] := by
                intro k hk
                unfold pollDevice
                cases m.poll_brightness_values (pollHw k) with
                | none => simp
                | some r =>
                    rw [filter_cons_false _ _ _
                      (by simp only [beq_eq_false_iff_ne]
                          show k ≠ (i + 1) + j
                          omega)]
                    rfl
              cases cd with
              | none =>
                  simp only [pollAux, List.getElem?_cons_succ, List.filter_append,
                    hdevnil i (by omega), List.nil_append]
                  exact ih (i + 1) cds j hlen hm0
              | some t =>
                  by_cases ht : now - t < USER_COOLDOWN
                  · simp only [pollAux, if_pos ht, List.getElem?_cons_succ]
                    exact ih (i + 1) cds j hlen hm0
                  · simp only [pollAux, if_neg ht, List.getElem?_cons_succ,
                      List.filter_append, hdevnil i (by omega), List.nil_append]
                    exact ih (i + 1) cds j hlen hm0

theorem pollAux_not_polled (now : Nat) (pollHw : Nat → Option (Nat × Nat)) :
    ∀ (i : Nat) (ms : List Monitor) (cds : List (Option Nat)) (j t : Nat),
      cds[j]? = some (some t) → now - t < USER_COOLDOWN →
      (i + j) ∉ (pollAux now pollHw i ms cds).polls := by
  intro i ms cds j t hcd ht
  induction ms generalizing i cds j with
  | nil => simp [pollAux]
  | cons m ms ih =>
      cases cds with
      | nil => simp at hcd
      | cons cd cds =>
          cases j with
          | zero =>
              simp only [List.getElem?_cons_zero, Option.some.injEq] at hcd
              subst hcd
              simp only [pollAux, if_pos ht, Nat.add_zero]
              intro hmem
              exact absurd ((pollAux_index_ge now pollHw (i + 1) ms cds).2 i hmem)
                (by omega)
          | succ j =>
              simp only [List.getElem?_cons_succ] at hcd
              have harith : i + (j + 1) = (i + 1) + j := by omega
              rw [harith]
              have htail := ih (i + 1) cds j hcd
              cases cd with
              | none =>
                  simp only [pollAux, List.mem_cons]
                  rintro (h | h)
                  · omega
                  · exact htail h
              | some u =>
                  by_cases hu : now - u < USER_COOLDOWN
                  · simp only [pollAux, if_pos hu]
                    exact htail
                  · simp only [pollAux, if_neg hu, List.mem_cons]
                    rintro (h | h)
                    · omega
                    · exact htail h

theorem visibleCycle_basic {st : WorkerState} {now : Nat} {cmds : List MonitorCmd}
    {setHw : Nat → SetHw} {pollHw : Nat → Option (Nat × Nat)} {o : StepOut}
    (hcy : visibleCycle st now cmds false setHw pollHw = some o) :
    o.cleanups = 0 ∧ o.terminated = false := by
  unfold visibleCycle at hcy
  cases hd : drainCommands cmds (List.replicate st.monitors.length none) with
  | none => rw [hd] at hcy; exact absurd hcy (by simp)
  | some pending =>
      rw [hd] at hcy
      simp only [Bool.false_eq_true, if_false] at hcy
      split at hcy <;> (injection hcy with h; subst h; exact ⟨rfl, rfl⟩)

theorem visibleCycle_disconnect {st : WorkerState} {now : Nat} {cmds : List MonitorCmd}
    {setHw : Nat → SetHw} {pollHw : Nat → Option (Nat × Nat)} {o : StepOut}
    (hcy : visibleCycle st now cmds true setHw pollHw = some o) :
    o.cleanups = 1 ∧ o.terminated = true ∧ o.echoes = [] ∧ o.pollUpdates = [] ∧
    o.setCalls = [] ∧ o.polls = [] ∧ o.state = st := by
  unfold visibleCycle at hcy
  cases hd : drainCommands cmds (List.replicate st.monitors.length none) with
  | none => rw [hd] at hcy; exact absurd hcy (by simp)
  | some pending =>
      rw [hd] at hcy
      simp only [if_pos] at hcy
      injection hcy with h
      subst h
      refine ⟨rfl, rfl, rfl, rfl, rfl, rfl, ?_⟩
      show { st with monitors := cleanup_monitors st.monitors } = st
      unfold cleanup_monitors
      rfl

theorem visibleCycle_wf {st : WorkerState} {now : Nat} {cmds : List MonitorCmd}
    {disc : Bool} {setHw : Nat → SetHw} {pollHw : Nat → Option (Nat × Nat)} {o : StepOut}
    (hwf : st.cooldowns.length = st.monitors.length)
    (hcy : visibleCycle st now cmds disc setHw pollHw = some o) :
    o.state.cooldowns.length = o.state.monitors.length ∧
    o.state.monitors.length = st.monitors.length := by
  unfold visibleCycle at hcy
  cases hd : drainCommands cmds (List.replicate st.monitors.length none) with
  | none => rw [hd] at hcy; exact absurd hcy (by simp)
  | some pending =>
      rw [hd] at hcy
      cases disc with
      | true =>
          simp only [if_pos] at hcy
          injection hcy with h
          subst h
          exact ⟨hwf, rfl⟩
      | false =>
          simp only [Bool.false_eq_true, if_false] at hcy
          split at hcy <;> (injection hcy with h; subst h)
          · constructor
            · show (pollAux now pollHw 0 _ _).cooldowns.length =
                (pollAux now pollHw 0 _ _).monitors.length
              rw [pollAux_cooldowns_length, pollAux_monitors_length,
                applyAux_cooldowns_length, applyAux_monitors_length, hwf]
            · show (pollAux now pollHw 0 _ _).monitors.length = st.monitors.length
              rw [pollAux_monitors_length, applyAux_monitors_length]
          · constructor
            · show (applyAux now setHw 0 _ _ _).cooldowns.length =
                (applyAux now setHw 0 _ _ _).monitors.length
              rw [applyAux_cooldowns_length, applyAux_monitors_length, hwf]
            · show (applyAux now setHw 0 _ _ _).monitors.length = st.monitors.length
              rw [applyAux_monitors_length]

theorem visibleCycle_coalesce_aux {st : WorkerState} {now : Nat} {cmds : List MonitorCmd}
    {setHw : Nat → SetHw} {pollHw : Nat → Option (Nat × Nat)} {o : StepOut}
    {idx vN : Nat}
    (hwf : st.cooldowns.length = st.monitors.length)
    (hvalid : ∀ c ∈ cmds, c.index < st.monitors.length)
    (hlast : lastFor idx cmds = some vN)
    (hcy : visibleCycle st now cmds false setHw pollHw = some o) :
    o.setCalls.filter (fun s => s.1 == idx) = [(idx, vN)] ∧
    o.echoes.filter (fun u => u.index == idx) = [⟨idx, vN⟩] ∧
    o.pollUpdates.filter (fun u => u.index == idx) = [] ∧
    o.state.cooldowns[idx]? = some (some now) := by
  have hidx : idx < st.monitors.length := hvalid _ (lastFor_mem hlast)
  unfold visibleCycle at hcy
  cases hd : drainCommands cmds (List.replicate st.monitors.length none) with
  | none =>
      have hsome := @drainCommands_isSome cmds
        (List.replicate st.monitors.length none)
        (fun c hc => by rw [List.length_replicate]; exact hvalid c hc)
      rw [hd] at hsome
      simp at hsome
  | some pending =>
      rw [hd] at hcy
      simp only [Bool.false_eq_true, if_false] at hcy
      have hplen : pending.length = st.monitors.length := by
        have := drainCommands_length hd
        rwa [List.length_replicate] at this
      have hslot : pending[idx]? = some (some vN) := by
        have hs : (List.replicate st.monitors.length (none : Option Nat))[idx]? = some none := by
          rw [List.getElem?_replicate, if_pos hidx]
        have h2 := drainCommands_getElem hd hs
        rw [hlast] at h2
        exact h2
      have hm : st.monitors.length = pending.length := hplen.symm
      have hc2 : st.cooldowns.length = pending.length := by rw [hwf, hplen]
      have hsc0 := applyAux_setCalls_filter now setHw 0 st.monitors st.cooldowns pending idx hm hc2
      rw [Nat.zero_add, hslot] at hsc0
      have hsc : (applyAux now setHw 0 st.monitors st.cooldowns pending).setCalls.filter
          (fun s => s.1 == idx) = [(idx, vN)] := hsc0
      have hec0 := applyAux_echoes_filter now setHw 0 st.monitors st.cooldowns pending idx hm hc2
      rw [Nat.zero_add, hslot] at hec0
      have hec : (applyAux now setHw 0 st.monitors st.cooldowns pending).echoes.filter
          (fun u => u.index == idx) = [⟨idx, vN⟩] := hec0
      have hcd0 := applyAux_cooldowns_getElem now setHw 0 st.monitors st.cooldowns pending idx hm hc2
      rw [hslot] at hcd0
      have hcd : (applyAux now setHw 0 st.monitors st.cooldowns pending).cooldowns[idx]?
          = some (some now) := hcd0
      have hmlen : (applyAux now setHw 0 st.monitors st.cooldowns pending).monitors.length
          = st.monitors.length := applyAux_monitors_length now setHw 0 _ _ _
      have hclen : (applyAux now setHw 0 st.monitors st.cooldowns pending).cooldowns.length
          = st.cooldowns.length := applyAux_cooldowns_length now setHw 0 _ _ _
      split at hcy
      case isTrue hp =>
          injection hcy with h
          subst h
          refine ⟨hsc, hec, ?_, ?_⟩
          · obtain ⟨m0, hm0⟩ : ∃ m0,
                (applyAux now setHw 0 st.monitors st.cooldowns pending).monitors[idx]?
                  = some m0 :=
              ⟨_, List.getElem?_eq_getElem (by rw [hmlen]; exact hidx)⟩
            have hpf0 := pollAux_updates_filter now pollHw 0
              (applyAux now setHw 0 st.monitors st.cooldowns pending).monitors
              (applyAux now setHw 0 st.monitors st.cooldowns pending).cooldowns
              idx m0 (by rw [hmlen, hclen, hwf]) hm0
            rw [Nat.zero_add, hcd] at hpf0
            have hpf : (pollAux now pollHw 0
                (applyAux now setHw 0 st.monitors st.cooldowns pending).monitors
                (applyAux now setHw 0 st.monitors st.cooldowns pending).cooldowns).pollUpdates.filter
                (fun u => u.index == idx) =
                (if now - now < USER_COOLDOWN then []
                 else (pollDevice idx m0 (pollHw idx)).2) := hpf0
            rw [hpf, if_pos (by rw [Nat.sub_self]; exact USER_COOLDOWN_pos)]
          · show (pollAux now pollHw 0 _ _).cooldowns[idx]? = some (some now)
            have hpc0 := pollAux_cooldowns_getElem now pollHw 0
              (applyAux now setHw 0 st.monitors st.cooldowns pending).monitors
              (applyAux now setHw 0 st.monitors st.cooldowns pending).cooldowns
              idx (by rw [hmlen, hclen, hwf])
            rw [hcd] at hpc0
            have hpc : (pollAux now pollHw 0
                (applyAux now setHw 0 st.monitors st.cooldowns pending).monitors
                (applyAux now setHw 0 st.monitors st.cooldowns pending).cooldowns).cooldowns[idx]?
                = some (if now - now < USER_COOLDOWN then some now else none) := hpc0
            rw [hpc, if_pos (by rw [Nat.sub_self]; exact USER_COOLDOWN_pos)]
      case isFalse hp =>
          injection hcy with h
          subst h
          exact ⟨hsc, hec, rfl, hcd⟩

theorem visibleCycle_suppress_aux {st : WorkerState} {now : Nat} {cmds : List MonitorCmd}
    {setHw : Nat → SetHw} {pollHw : Nat → Option (Nat × Nat)} {o : StepOut}
    {idx t : Nat}
    (hwf : st.cooldowns.length = st.monitors.length)
    (hcd : st.cooldowns[idx]? = some (some t))
    (hnow : now < t + USER_COOLDOWN)
    (hcy : visibleCycle st now cmds false setHw pollHw = some o) :
    o.pollUpdates.filter (fun u => u.index == idx) = [] ∧
    idx ∉ o.polls ∧
    ∃ u, o.state.cooldowns[idx]? = some (some u) ∧ (u = t ∨ u = now) := by
  have hidxc : idx < st.cooldowns.length := (List.getElem?_eq_some_iff.mp hcd).1
  have hidx : idx < st.monitors.length := hwf ▸ hidxc
  unfold visibleCycle at hcy
  cases hd : drainCommands cmds (List.replicate st.monitors.length none) with
  | none => rw [hd] at hcy; exact absurd hcy (by simp)
  | some pending =>
      rw [hd] at hcy
      simp only [Bool.false_eq_true, if_false] at hcy
      have hplen : pending.length = st.monitors.length := by
        have := drainCommands_length hd
        rwa [List.length_replicate] at this
      have hm : st.monitors.length = pending.length := hplen.symm
      have hc2 : st.cooldowns.length = pending.length := by rw [hwf, hplen]
      have hpidx : idx < pending.length := hplen ▸ hidx
      have hacd := applyAux_cooldowns_getElem now setHw 0 st.monitors st.cooldowns pending idx hm hc2
      -- the post-apply cooldown is `some u` for u the old stamp or `now`
      obtain ⟨u, hu, huor⟩ :
          ∃ u, (applyAux now setHw 0 st.monitors st.cooldowns pending).cooldowns[idx]?
                 = some (some u) ∧ (u = t ∨ u = now) := by
        cases hp : pending[idx]? with
        | none =>
            exfalso
            have h2 := List.getElem?_eq_getElem (l := pending) hpidx
            rw [hp] at h2
            simp at h2
        | some slot =>
            cases slot with
            | none =>
                rw [hp, hcd] at hacd
                exact ⟨t, hacd, Or.inl rfl⟩
            | some v =>
                rw [hp] at hacd
                exact ⟨now, hacd, Or.inr rfl⟩
      have hCpos := USER_COOLDOWN_pos
      have hnowu : now - u < USER_COOLDOWN := by
        rcases huor with h | h <;> subst h
        · omega
        · omega
      have hmlen : (applyAux now setHw 0 st.monitors st.cooldowns pending).monitors.length
          = st.monitors.length := applyAux_monitors_length now setHw 0 _ _ _
      have hclen : (applyAux now setHw 0 st.monitors st.cooldowns pending).cooldowns.length
          = st.cooldowns.length := applyAux_cooldowns_length now setHw 0 _ _ _
      split at hcy
      case isTrue hp =>
          injection hcy with h
          subst h
          refine ⟨?_, ?_, ?_⟩
          · obtain ⟨m0, hm0⟩ : ∃ m0,
                (applyAux now setHw 0 st.monitors st.cooldowns pending).monitors[idx]?
                  = some m0 :=
              ⟨_, List.getElem?_eq_getElem (by rw [hmlen]; exact hidx)⟩
            have hpf0 := pollAux_updates_filter now pollHw 0
              (applyAux now setHw 0 st.monitors st.cooldowns pending).monitors
              (applyAux now setHw 0 st.monitors st.cooldowns pending).cooldowns
              idx m0 (by rw [hmlen, hclen, hwf]) hm0
            rw [Nat.zero_add, hu] at hpf0
            have hpf : (pollAux now pollHw 0
                (applyAux now setHw 0 st.monitors st.cooldowns pending).monitors
                (applyAux now setHw 0 st.monitors st.cooldowns pending).cooldowns).pollUpdates.filter
                (fun w => w.index == idx) =
                (if now - u < USER_COOLDOWN then []
                 else (pollDevice idx m0 (pollHw idx)).2) := hpf0
            rw [hpf, if_pos hnowu]
          · have := pollAux_not_polled now pollHw 0
              (applyAux now setHw 0 st.monitors st.cooldowns pending).monitors
              (applyAux now setHw 0 st.monitors st.cooldowns pending).cooldowns
              idx u hu hnowu
            rwa [Nat.zero_add] at this
          · have hpc0 := pollAux_cooldowns_getElem now pollHw 0
              (applyAux now setHw 0 st.monitors st.cooldowns pending).monitors
              (applyAux now setHw 0 st.monitors st.cooldowns pending).cooldowns
              idx (by rw [hmlen, hclen, hwf])
            rw [hu] at hpc0
            have hpc : (pollAux now pollHw 0
                (applyAux now setHw 0 st.monitors st.cooldowns pending).monitors
                (applyAux now setHw 0 st.monitors st.cooldowns pending).cooldowns).cooldowns[idx]?
                = some (if now - u < USER_COOLDOWN then some u else none) := hpc0
            exact ⟨u, by rw [hpc, if_pos hnowu], huor⟩
      case isFalse hp =>
          injection hcy with h
          subst h
          exact ⟨rfl, List.not_mem_nil idx, u, hu, huor⟩

theorem hiddenStep_cmd {st : WorkerState} {now : Nat} {c : MonitorCmd}
    {setHw : Nat → SetHw} {o : StepOut}
    (h : hiddenStep st now (RecvResult.cmd c) setHw = some o) :
    o.polls = [] ∧ o.setCalls = [(c.index, c.value)] ∧
    o.echoes = [⟨c.index, c.value⟩] ∧ o.pollUpdates = [] ∧
    o.cleanups = 0 ∧ o.terminated = false := by
  simp only [hiddenStep] at h
  split at h
  · injection h with h2
    subst h2
    exact ⟨rfl, rfl, rfl, rfl, rfl, rfl⟩
  · exact absurd h (by simp)

theorem hiddenStep_no_polls {st : WorkerState} {now : Nat} {recv : RecvResult}
    {setHw : Nat → SetHw} {o : StepOut}
    (h : hiddenStep st now recv setHw = some o) : o.polls = [] := by
  cases recv with
  | cmd c => exact (hiddenStep_cmd h).1
  | timeout =>
      simp only [hiddenStep] at h
      injection h with h2
      subst h2
      rfl
  | disconnected =>
      simp only [hiddenStep] at h
      injection h with h2
      subst h2
      rfl

theorem hiddenStep_wf {st : WorkerState} {now : Nat} {recv : RecvResult}
    {setHw : Nat → SetHw} {o : StepOut}
    (hwf : st.cooldowns.length = st.monitors.length)
    (h : hiddenStep st now recv setHw = some o) :
    o.state.cooldowns.length = o.state.monitors.length ∧
    o.state.monitors.length = st.monitors.length := by
  cases recv with
  | cmd c =>
      simp only [hiddenStep] at h
      split at h
      · injection h with h2
        subst h2
        constructor
        · show (st.cooldowns.set c.index (some now)).length =
            (st.monitors.set c.index _).length
          rw [List.length_set, List.length_set, hwf]
        · show (st.monitors.set c.index _).length = st.monitors.length
          rw [List.length_set]
      · exact absurd h (by simp)
  | timeout =>
      simp only [hiddenStep] at h
      injection h with h2
      subst h2
      exact ⟨hwf, rfl⟩
  | disconnected =>
      simp only [hiddenStep] at h
      injection h with h2
      subst h2
      exact ⟨hwf, rfl⟩

theorem workerStep_no_disconnect {st : WorkerState} {inp : StepInput} {o : StepOut}
    (hnd : signalsDisconnect inp = false)
    (h : workerStep st inp = some o) :
    o.cleanups = 0 ∧ o.terminated = false := by
  unfold workerStep at h
  unfold signalsDisconnect at hnd
  cases hv : inp.visible with
  | true =>
      rw [hv] at h hnd
      simp only [if_pos] at h hnd
      rw [hnd] at h
      exact visibleCycle_basic h
  | false =>
      rw [hv] at h hnd
      simp only [Bool.false_eq_true, if_false] at h hnd
      cases hr : inp.recv with
      | cmd c =>
          rw [hr] at h
          obtain ⟨-, -, -, -, h5, h6⟩ := hiddenStep_cmd h
          exact ⟨h5, h6⟩
      | timeout =>
          rw [hr] at h
          simp only [hiddenStep] at h
          injection h with h2
          subst h2
          exact ⟨rfl, rfl⟩
      | disconnected =>
          rw [hr] at hnd
          simp at hnd

theorem workerStep_disconnect {st : WorkerState} {inp : StepInput} {o : StepOut}
    (hd : signalsDisconnect inp = true)
    (h : workerStep st inp = some o) :
    o.cleanups = 1 ∧ o.terminated = true ∧ o.echoes = [] ∧ o.pollUpdates = [] := by
  unfold workerStep at h
  unfold signalsDisconnect at hd
  cases hv : inp.visible with
  | true =>
      rw [hv] at h hd
      simp only [if_pos] at h hd
      rw [hd] at h
      obtain ⟨h1, h2, h3, h4, -, -, -⟩ := visibleCycle_disconnect h
      exact ⟨h1, h2, h3, h4⟩
  | false =>
      rw [hv] at h hd
      simp only [Bool.false_eq_true, if_false] at h hd
      have hr : inp.recv = RecvResult.disconnected := by
        have := beq_iff_eq.mp hd
        exact this
      rw [hr] at h
      simp only [hiddenStep] at h
      injection h with h2
      subst h2
      exact ⟨rfl, rfl, rfl, rfl⟩

theorem workerStep_wf {st : WorkerState} {inp : StepInput} {o : StepOut}
    (hwf : st.cooldowns.length = st.monitors.length)
    (h : workerStep st inp = some o) :
    o.state.cooldowns.length = o.state.monitors.length ∧
    o.state.monitors.length = st.monitors.length := by
  unfold workerStep at h
  cases hv : inp.visible with
  | true =>
      rw [hv] at h
      simp only [if_pos] at h
      exact visibleCycle_wf hwf h
  | false =>
      rw [hv] at h
      simp only [Bool.false_eq_true, if_false] at h
      exact hiddenStep_wf hwf h

theorem runWorker_cons {st : WorkerState} {inp : StepInput} {rest : List StepInput}
    {trace : List StepOut}
    (hr : runWorker st (inp :: rest) = some trace) :
    ∃ o, workerStep st inp = some o ∧
      ((o.terminated = true ∧ trace = [o]) ∨
       (o.terminated = false ∧ ∃ tr, runWorker o.state rest = some tr ∧ trace = o :: tr)) := by
  simp only [runWorker] at hr
  cases hw : workerStep st inp with
  | none => rw [hw] at hr; exact absurd hr (by simp)
  | some o =>
      rw [hw] at hr
      have hr2 : (if o.terminated then some [o]
                  else match runWorker o.state rest with
                       | none => none
                       | some tr => some (o :: tr)) = some trace := hr
      by_cases hterm : o.terminated = true
      · rw [if_pos hterm] at hr2
        injection hr2 with h
        exact ⟨o, rfl, Or.inl ⟨hterm, h.symm⟩⟩
      · have hterm2 : o.terminated = false := by
          revert hterm; cases o.terminated <;> simp
        rw [if_neg hterm] at hr2
        cases hr3 : runWorker o.state rest with
        | none => rw [hr3] at hr2; exact absurd hr2 (by simp)
        | some tr =>
            rw [hr3] at hr2
            injection hr2 with h
            exact ⟨o, rfl, Or.inr ⟨hterm2, tr, hr3, h.symm⟩⟩

theorem runWorker_hidden {st : WorkerState} {inputs : List StepInput} {trace : List StepOut}
    (hh : ∀ inp ∈ inputs, inp.visible = false)
    (hr : runWorker st inputs = some trace) :
    (∀ o ∈ trace, o.polls = []) ∧
    (∀ p ∈ inputs.zip trace, ∀ c, p.1.recv = RecvResult.cmd c →
       p.2.setCalls = [(c.index, c.value)] ∧ p.2.updates = [⟨c.index, c.value⟩]) := by
  induction inputs generalizing st trace with
  | nil =>
      simp only [runWorker, Option.some.injEq] at hr
      subst hr
      exact ⟨by simp, by simp⟩
  | cons inp rest ih =>
      obtain ⟨o, hw, hcase⟩ := runWorker_cons hr
      have hv : inp.visible = false := hh inp (by simp)
      have hhid : hiddenStep st inp.now inp.recv inp.setHw = some o := by
        unfold workerStep at hw
        rw [hv] at hw
        simpa using hw
      have hstep : ∀ c, inp.recv = RecvResult.cmd c →
          o.setCalls = [(c.index, c.value)] ∧ o.updates = [⟨c.index, c.value⟩] := by
        intro c hc
        rw [hc] at hhid
        obtain ⟨-, h2, h3, h4, -, -⟩ := hiddenStep_cmd hhid
        refine ⟨h2, ?_⟩
        unfold StepOut.updates
        rw [h3, h4]
        rfl
      rcases hcase with ⟨hterm, htr⟩ | ⟨hterm, tr, hrr, htr⟩
      · subst htr
        refine ⟨?_, ?_⟩
        · intro x hx
          simp only [List.mem_singleton] at hx
          subst hx
          exact hiddenStep_no_polls hhid
        · intro p hp c hc
          have hp2 : p = (inp, o) := by
            rw [List.zip_cons_cons, List.zip_nil_right] at hp
            simpa using hp
          subst hp2
          exact hstep c hc
      · subst htr
        obtain ⟨ihp, ihz⟩ := ih (fun i hi => hh i (List.mem_cons_of_mem _ hi)) hrr
        refine ⟨?_, ?_⟩
        · intro x hx
          rcases List.mem_cons.mp hx with h | h
          · subst h; exact hiddenStep_no_polls hhid
          · exact ihp x h
        · intro p hp c hc
          rw [List.zip_cons_cons] at hp
          rcases List.mem_cons.mp hp with h | h
          · subst h; exact hstep c hc
          · exact ihz p h c hc

theorem runWorker_shutdown {st : WorkerState} {pre : List StepInput} {d : StepInput}
    {post : List StepInput} {trace : List StepOut}
    (hpre : ∀ inp ∈ pre, signalsDisconnect inp = false)
    (hd : signalsDisconnect d = true)
    (hr : runWorker st (pre ++ d :: post) = some trace) :
    (trace.map StepOut.cleanups).sum = 1 ∧
    trace.length = pre.length + 1 ∧
    ∃ last, trace.getLast? = some last ∧ last.terminated = true ∧ last.updates = [] := by
  induction pre generalizing st trace with
  | nil =>
      simp only [List.nil_append] at hr
      obtain ⟨o, hw, hcase⟩ := runWorker_cons hr
      obtain ⟨h1, h2, h3, h4⟩ := workerStep_disconnect hd hw
      rcases hcase with ⟨hterm, htr⟩ | ⟨hterm, -, -, -⟩
      · subst htr
        refine ⟨by simp [h1], by simp, o, by simp, h2, ?_⟩
        unfold StepOut.updates
        rw [h3, h4]
        rfl
      · rw [h2] at hterm; cases hterm
  | cons inp pre ih =>
      simp only [List.cons_append] at hr
      obtain ⟨o, hw, hcase⟩ := runWorker_cons hr
      have hnd := hpre inp (by simp)
      obtain ⟨hc0, ht0⟩ := workerStep_no_disconnect hnd hw
      rcases hcase with ⟨hterm, -⟩ | ⟨-, tr, hrr, htr⟩
      · rw [ht0] at hterm; cases hterm
      · subst htr
        obtain ⟨s1, s2, last, l1, l2, l3⟩ :=
          ih (fun i hi => hpre i (List.mem_cons_of_mem _ hi)) hrr
        refine ⟨by simp [hc0, s1], by simp [s2], last, ?_, l2, l3⟩
        cases tr with
        | nil => rw [List.length_nil] at s2; omega
        | cons x xs => rw [List.getLast?_cons_cons]; exact l1

theorem runWorker_cooldown {idx T : Nat} {st : WorkerState} {inputs : List StepInput}
    {trace : List StepOut}
    (hwf : st.cooldowns.length = st.monitors.length)
    (hcd : ∃ u, st.cooldowns[idx]? = some (some u) ∧ T ≤ u)
    (hins : ∀ inp ∈ inputs, inp.visible = true ∧ inp.disconnected = false ∧
              T ≤ inp.now ∧ inp.now < T + USER_COOLDOWN)
    (hr : runWorker st inputs = some trace) :
    ∀ o ∈ trace, (∀ w ∈ o.pollUpdates, w.index ≠ idx) ∧ idx ∉ o.polls := by
  induction inputs generalizing st trace with
  | nil =>
      simp only [runWorker, Option.some.injEq] at hr
      subst hr
      simp
  | cons inp rest ih =>
      obtain ⟨o, hw, hcase⟩ := runWorker_cons hr
      obtain ⟨hv, hdisc, hT1, hT2⟩ := hins inp (by simp)
      obtain ⟨u, hu, hTu⟩ := hcd
      have hcy : visibleCycle st inp.now inp.cmds false inp.setHw inp.pollHw = some o := by
        unfold workerStep at hw
        rw [hv] at hw
        simp only [if_pos] at hw
        rw [hdisc] at hw
        exact hw
      have hnowu : inp.now < u + USER_COOLDOWN := by omega
      obtain ⟨hfil, hpol, u2, hu2, hor2⟩ := visibleCycle_suppress_aux hwf hu hnowu hcy
      have hofact : (∀ w ∈ o.pollUpdates, w.index ≠ idx) ∧ idx ∉ o.polls := by
        refine ⟨?_, hpol⟩
        intro w hw2
        have := List.filter_eq_nil_iff.mp hfil w hw2
        simpa using this
      rcases hcase with ⟨hterm, htr⟩ | ⟨hterm, tr, hrr, htr⟩
      · subst htr
        intro x hx
        simp only [List.mem_singleton] at hx
        subst hx
        exact hofact
      · subst htr
        intro x hx
        rcases List.mem_cons.mp hx with h | h
        · subst h; exact hofact
        · have hwf2 := (visibleCycle_wf hwf hcy).1
          have hT2u2 : T ≤ u2 := by
            rcases hor2 with h2 | h2 <;> subst h2 <;> omega
          exact ih hwf2 ⟨u2, hu2, hT2u2⟩
            (fun i hi => hins i (List.mem_cons_of_mem _ hi)) hrr x h

theorem pollDevice_none (i : Nat) (m : Monitor) : (pollDevice i m none).2 = [] := rfl

theorem applyUpdate_user_cooldowns (now : Nat) (st : UIState) (u : MonitorUpdate) :
    (applyUpdate now st u).user_cooldowns = st.user_cooldowns := by
  unfold applyUpdate
  dsimp only
  split <;> rfl

theorem applyUpdate_getElem_ne {now : Nat} {st : UIState} {u : MonitorUpdate} {idx : Nat}
    (h : u.index ≠ idx) :
    (applyUpdate now st u).brightness_values[idx]? = st.brightness_values[idx]? := by
  unfold applyUpdate
  dsimp only
  split
  · rfl
  · show (st.brightness_values.set u.index u.brightness)[idx]? = _
    exact List.getElem?_set_ne h

theorem applyUpdate_suppressed {now : Nat} {st : UIState} {u : MonitorUpdate} {T : Nat}
    (h1 : st.user_cooldowns.getD u.index none = some T)
    (h2 : now - T < USER_COOLDOWN) :
    applyUpdate now st u = st := by
  unfold applyUpdate
  dsimp only
  rw [h1]
  have hdec : decide (now - T < USER_COOLDOWN) = true := decide_eq_true h2
  show (if decide (now - T < USER_COOLDOWN) = true then st
        else { st with brightness_values := st.brightness_values.set u.index u.brightness })
      = st
  rw [hdec]
  exact if_pos rfl

theorem applyUpdates_suppressed {now T idx : Nat} {st : UIState} {us : List MonitorUpdate}
    (h1 : st.user_cooldowns.getD idx none = some T)
    (h2 : now - T < USER_COOLDOWN) :
    (applyUpdates now st us).brightness_values[idx]? = st.brightness_values[idx]? := by
  induction us generalizing st with
  | nil => rfl
  | cons u us ih =>
      show (applyUpdates now (applyUpdate now st u) us).brightness_values[idx]? = _
      have hcd : (applyUpdate now st u).user_cooldowns.getD idx none = some T := by
        rw [applyUpdate_user_cooldowns]
        exact h1
      rw [ih hcd]
      by_cases hui : u.index = idx
      · have := applyUpdate_suppressed (hui ▸ h1) h2
        rw [this]
      · exact applyUpdate_getElem_ne hui

theorem applyUpdates_no_idx {now idx : Nat} {st : UIState} {us : List MonitorUpdate}
    (h : ∀ u ∈ us, u.index ≠ idx) :
    (applyUpdates now st us).brightness_values[idx]? = st.brightness_values[idx]? := by
  induction us generalizing st with
  | nil => rfl
  | cons u us ih =>
      show (applyUpdates now (applyUpdate now st u) us).brightness_values[idx]? = _
      rw [ih (fun w hw => h w (List.mem_cons_of_mem _ hw))]
      exact applyUpdate_getElem_ne (h u (by simp))

theorem uiFrameCommands_valid (count : Nat) (released : Nat → Option Nat) :
    ∀ c ∈ uiFrameCommands count released, c.index < count := by
  intro c hc
  unfold uiFrameCommands at hc
  rcases List.mem_filterMap.mp hc with ⟨i, hi, he⟩
  cases hr : released i with
  | none =>
      rw [hr] at he
      exact absurd he (by exact fun hx => Option.noConfusion hx)
  | some v =>
      rw [hr] at he
      have he2 : (⟨i, v⟩ : MonitorCmd) = c := by
        have hs : some (⟨i, v⟩ : MonitorCmd) = some c := he
        injection hs
      subst he2
      exact List.mem_range.mp hi

theorem visibleCycle_poll_failure {st : WorkerState} {now : Nat} {cmds : List MonitorCmd}
    {setHw : Nat → SetHw} {pollHw : Nat → Option (Nat × Nat)} {o : StepOut} {idx : Nat}
    (hwf : st.cooldowns.length = st.monitors.length)
    (hidx : idx < st.monitors.length)
    (hlast : lastFor idx cmds = none)
    (hpoll : pollHw idx = none)
    (hcy : visibleCycle st now cmds false setHw pollHw = some o) :
    o.updates.filter (fun u => u.index == idx) = [] := by
  unfold visibleCycle at hcy
  cases hd : drainCommands cmds (List.replicate st.monitors.length none) with
  | none => rw [hd] at hcy; exact absurd hcy (by simp)
  | some pending =>
      rw [hd] at hcy
      simp only [Bool.false_eq_true, if_false] at hcy
      have hplen : pending.length = st.monitors.length := by
        have := drainCommands_length hd
        rwa [List.length_replicate] at this
      have hslot : pending[idx]? = some none := by
        have hs : (List.replicate st.monitors.length (none : Option Nat))[idx]? = some none := by
          rw [List.getElem?_replicate, if_pos hidx]
        have h2 := drainCommands_getElem hd hs
        rw [hlast] at h2
        exact h2
      have hm : st.monitors.length = pending.length := hplen.symm
      have hc2 : st.cooldowns.length = pending.length := by rw [hwf, hplen]
      have hec0 := applyAux_echoes_filter now setHw 0 st.monitors st.cooldowns pending idx hm hc2
      rw [Nat.zero_add, hslot] at hec0
      have hec : (applyAux now setHw 0 st.monitors st.cooldowns pending).echoes.filter
          (fun u => u.index == idx) = [] := hec0
      have hmlen : (applyAux now setHw 0 st.monitors st.cooldowns pending).monitors.length
          = st.monitors.length := applyAux_monitors_length now setHw 0 _ _ _
      have hclen : (applyAux now setHw 0 st.monitors st.cooldowns pending).cooldowns.length
          = st.cooldowns.length := applyAux_cooldowns_length now setHw 0 _ _ _
      split at hcy
      case isTrue hp =>
          injection hcy with h
          subst h
          simp only [StepOut.updates]
          rw [List.filter_append, hec, List.nil_append]
          obtain ⟨m0, hm0⟩ : ∃ m0,
              (applyAux now setHw 0 st.monitors st.cooldowns pending).monitors[idx]?
                = some m0 :=
            ⟨_, List.getElem?_eq_getElem (by rw [hmlen]; exact hidx)⟩
          have hpf0 := pollAux_updates_filter now pollHw 0
            (applyAux now setHw 0 st.monitors st.cooldowns pending).monitors
            (applyAux now setHw 0 st.monitors st.cooldowns pending).cooldowns
            idx m0 (by rw [hmlen, hclen, hwf]) hm0
          rw [Nat.zero_add, hpoll] at hpf0
          rw [hpf0]
          cases hacd : (applyAux now setHw 0 st.monitors
              st.cooldowns pending).cooldowns[idx]? with
          | none => rfl
          | some slot =>
              cases slot with
              | none => exact pollDevice_none idx m0
              | some t =>
                  by_cases ht : now - t < USER_COOLDOWN
                  · show (if now - t < USER_COOLDOWN then []
                          else (pollDevice idx m0 none).2) = []
                    rw [if_pos ht]
                  · show (if now - t < USER_COOLDOWN then []
                          else (pollDevice idx m0 none).2) = []
                    rw [if_neg ht]
                    exact pollDevice_none idx m0
      case isFalse hp =>
          injection hcy with h
          subst h
          simp only [StepOut.updates]
          rw [List.append_nil]
          exact hec

theorem set_brightness_ddc_attempt (m : Monitor) (v : Nat) (hw : SetHw) {d : Nat}
    (hb : m.backend = MonitorBackend.ddc d) :
    (m.set_brightness v hw).hwAttempt =
      some (rustClamp v (m.min_brightness.getD 0) (m.max_brightness.getD 100)) := by
  unfold Monitor.set_brightness
  rw [hb]
  dsimp only
  split <;> rfl

theorem set_brightness_backlight_attempt (m : Monitor) (v : Nat) (hw : SetHw)
    {p : String} {maxRaw : Nat}
    (hb : m.backend = MonitorBackend.backlight p)
    (hraw : hw.backlightMaxRaw = some maxRaw) :
    (m.set_brightness v hw).hwAttempt =
      some (rustClamp v (m.min_brightness.getD 0) (m.max_brightness.getD 100)
              * maxRaw / 100) := by
  unfold Monitor.set_brightness
  rw [hb, hraw]
  dsimp only
  split <;> rfl

theorem visibleCycle_coalesce_extra {st : WorkerState} {now : Nat} {cmds : List MonitorCmd}
    {setHw : Nat → SetHw} {pollHw : Nat → Option (Nat × Nat)} {o : StepOut}
    {idx vN : Nat} {m0 : Monitor}
    (hwf : st.cooldowns.length = st.monitors.length)
    (hvalid : ∀ c ∈ cmds, c.index < st.monitors.length)
    (hlast : lastFor idx cmds = some vN)
    (hm0 : st.monitors[idx]? = some m0)
    (hcy : visibleCycle st now cmds false setHw pollHw = some o) :
    o.hwWrites.filter (fun s => s.1 == idx) =
      (match (m0.set_brightness vN (setHw idx)).hwAttempt with
       | some w => [(idx, w)]
       | none => []) ∧
    idx ∉ o.polls := by
  have hidx : idx < st.monitors.length := hvalid _ (lastFor_mem hlast)
  unfold visibleCycle at hcy
  cases hd : drainCommands cmds (List.replicate st.monitors.length none) with
  | none => rw [hd] at hcy; exact absurd hcy (by simp)
  | some pending =>
      rw [hd] at hcy
      simp only [Bool.false_eq_true, if_false] at hcy
      have hplen : pending.length = st.monitors.length := by
        have := drainCommands_length hd
        rwa [List.length_replicate] at this
      have hslot : pending[idx]? = some (some vN) := by
        have hs : (List.replicate st.monitors.length (none : Option Nat))[idx]? = some none := by
          rw [List.getElem?_replicate, if_pos hidx]
        have h2 := drainCommands_getElem hd hs
        rw [hlast] at h2
        exact h2
      have hm : st.monitors.length = pending.length := hplen.symm
      have hc2 : st.cooldowns.length = pending.length := by rw [hwf, hplen]
      have hhw0 := applyAux_hwWrites_filter now setHw 0 st.monitors st.cooldowns pending idx m0
        hm hc2 hm0
      rw [Nat.zero_add, hslot] at hhw0
      have hhw : (applyAux now setHw 0 st.monitors st.cooldowns pending).hwWrites.filter
          (fun s => s.1 == idx) =
          (match (m0.set_brightness vN (setHw idx)).hwAttempt with
           | some w => [(idx, w)]
           | none => []) := hhw0
      have hcd0 := applyAux_cooldowns_getElem now setHw 0 st.monitors st.cooldowns pending idx hm hc2
      rw [hslot] at hcd0
      have hcd : (applyAux now setHw 0 st.monitors st.cooldowns pending).cooldowns[idx]?
          = some (some now) := hcd0
      split at hcy
      case isTrue hp =>
          injection hcy with h
          subst h
          refine ⟨hhw, ?_⟩
          have := pollAux_not_polled now pollHw 0
            (applyAux now setHw 0 st.monitors st.cooldowns pending).monitors
            (applyAux now setHw 0 st.monitors st.cooldowns pending).cooldowns
            idx now hcd (by rw [Nat.sub_self]; exact USER_COOLDOWN_pos)
          rwa [Nat.zero_add] at this
      case isFalse hp =>
          injection hcy with h
          subst h
          exact ⟨hhw, List.not_mem_nil idx⟩

/-- C1: for every visible drain cycle of the worker loop (queue still
connected), and any sequence of commands drained in that cycle whose last
command for device `idx` carries `vN`, exactly one `set_brightness` call
`set(idx, vN)` is issued — earlier values never reach hardware — and
exactly one Update `{idx, vN}` is emitted for that cycle. -/
theorem claim_C1_coalescing {st : WorkerState} {now : Nat} {cmds : List MonitorCmd}
    {setHw : Nat → SetHw} {pollHw : Nat → Option (Nat × Nat)} {o : StepOut}
    {idx vN : Nat}
    (hwf : st.cooldowns.length = st.monitors.length)
    (hvalid : ∀ c ∈ cmds, c.index < st.monitors.length)
    (hlast : lastFor idx cmds = some vN)
    (hcy : visibleCycle st now cmds false setHw pollHw = some o) :
    o.setCalls.filter (fun s => s.1 == idx) = [(idx, vN)] ∧
    o.updates.filter (fun u => u.index == idx) = [⟨idx, vN⟩] := by
  obtain ⟨h1, h2, h3, -⟩ := visibleCycle_coalesce_aux hwf hvalid hlast hcy
  refine ⟨h1, ?_⟩
  unfold StepOut.updates
  rw [List.filter_append, h2, h3, List.append_nil]

/-- C2 counterexample: with device 0 bounded by `[0, 100]` and a command
`SetBrightness(0, 150)`, the hardware write receives the clamped 100 but
the echoed Update carries 150, not the clamped value — refuting the
claim that the echo carries the clamped value. -/
theorem claim_C2_counterexample :
    (visibleCycle ⟨[⟨"A", some 0, some 50, some 100, MonitorBackend.ddc 1⟩], [none], 0⟩
        0 [⟨0, 150⟩] false (fun _ => ⟨some 100, true⟩) (fun _ => none)).map
      (fun o => (o.hwWrites, o.updates)) = some ([(0, 100)], [⟨0, 150⟩]) ∧
    (⟨0, 150⟩ : MonitorUpdate) ≠ ⟨0, 100⟩ := by
  exact ⟨by decide, by decide⟩

/-- C2 amended: for every command `SetBrightness(idx, v)` applied by the
worker to a device with cached bounds `[mn, mx]`, the value is clamped to
`clamp(v, mn, mx)` before the hardware write — the DDC backend passes
exactly `clamp(v, mn, mx)` to the hardware call, while the backlight
backend writes it converted to the device raw scale,
`clamp(v, mn, mx) * max_raw / 100` — and the Update echoed back to the
UI carries the raw commanded value `v`, not the clamped value. -/
theorem claim_C2_clamping_amended {st : WorkerState} {now : Nat} {cmds : List MonitorCmd}
    {setHw : Nat → SetHw} {pollHw : Nat → Option (Nat × Nat)} {o : StepOut}
    {idx v mn mx : Nat} {m : Monitor}
    (hwf : st.cooldowns.length = st.monitors.length)
    (hvalid : ∀ c ∈ cmds, c.index < st.monitors.length)
    (hlast : lastFor idx cmds = some v)
    (hm : st.monitors[idx]? = some m)
    (hmn : m.min_brightness = some mn)
    (hmx : m.max_brightness = some mx)
    (hcy : visibleCycle st now cmds false setHw pollHw = some o) :
    (∀ d, m.backend = MonitorBackend.ddc d →
       o.hwWrites.filter (fun s => s.1 == idx) = [(idx, rustClamp v mn mx)]) ∧
    (∀ p maxRaw, m.backend = MonitorBackend.backlight p →
       (setHw idx).backlightMaxRaw = some maxRaw →
       o.hwWrites.filter (fun s => s.1 == idx) =
         [(idx, rustClamp v mn mx * maxRaw / 100)]) ∧
    o.updates.filter (fun u => u.index == idx) = [⟨idx, v⟩] := by
  obtain ⟨hw1, -⟩ := visibleCycle_coalesce_extra hwf hvalid hlast hm hcy
  obtain ⟨-, h2, h3, -⟩ := visibleCycle_coalesce_aux hwf hvalid hlast hcy
  refine ⟨?_, ?_, ?_⟩
  · intro d hb
    rw [hw1]
    have hatt := set_brightness_ddc_attempt m v (setHw idx) hb
    rw [hmn, hmx] at hatt
    rw [hatt]
    rfl
  · intro p maxRaw hb hraw
    rw [hw1]
    have hatt := set_brightness_backlight_attempt m v (setHw idx) hb hraw
    rw [hmn, hmx] at hatt
    rw [hatt]
    rfl
  · unfold StepOut.updates
    rw [List.filter_append, h2, h3, List.append_nil]

/-- C3 counterexample: a cycle whose single `set` call fails (the
hardware write reports an error) still emits the echo Update for that
device — refuting the claim that a failed `set` produces no Update for
that device in that cycle. -/
theorem claim_C3_counterexample :
    (visibleCycle ⟨[⟨"A", some 0, some 50, some 100, MonitorBackend.ddc 1⟩], [none], 0⟩
        0 [⟨0, 50⟩] false (fun _ => ⟨some 100, false⟩) (fun _ => none)).map
      (fun o => o.updates) = some [⟨0, 50⟩] ∧
    ([⟨0, 50⟩] : List MonitorUpdate) ≠ [] := by
  exact ⟨by decide, by decide⟩

/-- C3 amended: a failed `poll()` on device `idx` is ignored — the loop
continues, no Update for `idx` is emitted that cycle, and the UI display
for `idx` is unchanged by the drained Updates; a failed `set()` is
likewise ignored and the loop continues, but the echo Update carrying the
commanded value is still emitted that cycle. -/
theorem claim_C3_transient_amended {st : WorkerState} {now : Nat} {cmds : List MonitorCmd}
    {setHw : Nat → SetHw} {pollHw : Nat → Option (Nat × Nat)} {o : StepOut}
    (hwf : st.cooldowns.length = st.monitors.length)
    (hvalid : ∀ c ∈ cmds, c.index < st.monitors.length)
    (hcy : visibleCycle st now cmds false setHw pollHw = some o) :
    (∀ idx, idx < st.monitors.length → lastFor idx cmds = none → pollHw idx = none →
       o.updates.filter (fun u => u.index == idx) = [] ∧ o.terminated = false ∧
       ∀ (uiNow : Nat) (ui : UIState),
         (applyUpdates uiNow ui o.updates).brightness_values[idx]? =
           ui.brightness_values[idx]?) ∧
    (∀ idx v, lastFor idx cmds = some v →
       o.echoes.filter (fun u => u.index == idx) = [⟨idx, v⟩] ∧ o.terminated = false) := by
  constructor
  · intro idx hidx hlast hpoll
    have hfil := visibleCycle_poll_failure hwf hidx hlast hpoll hcy
    refine ⟨hfil, (visibleCycle_basic hcy).2, ?_⟩
    intro uiNow ui
    refine applyUpdates_no_idx ?_
    intro u hu
    have := List.filter_eq_nil_iff.mp hfil u hu
    simpa using this
  · intro idx v hlast
    exact ⟨(visibleCycle_coalesce_aux hwf hvalid hlast hcy).2.1,
           (visibleCycle_basic hcy).2⟩

/-- C4: if a visible cycle at time `T` applies `set(idx, v)` (a command
for `idx` is drained, its last value being `v`), then neither that cycle
nor any later visible cycle occurring at a time in `[T, T + USER_COOLDOWN)`
polls device `idx` or emits a poll-derived Update for it: the write
restarts the per-device cooldown and the poll step skips the device while
the cooldown is active. -/
theorem claim_C4_write_cooldown {st : WorkerState} {T : Nat} {cmds : List MonitorCmd}
    {setHw : Nat → SetHw} {pollHw : Nat → Option (Nat × Nat)} {o0 : StepOut}
    {idx v : Nat} {inputs : List StepInput} {trace : List StepOut}
    (hwf : st.cooldowns.length = st.monitors.length)
    (hvalid : ∀ c ∈ cmds, c.index < st.monitors.length)
    (hset : lastFor idx cmds = some v)
    (h0 : visibleCycle st T cmds false setHw pollHw = some o0)
    (hins : ∀ inp ∈ inputs, inp.visible = true ∧ inp.disconnected = false ∧
              T ≤ inp.now ∧ inp.now < T + USER_COOLDOWN)
    (hrun : runWorker o0.state inputs = some trace) :
    ((∀ u ∈ o0.pollUpdates, u.index ≠ idx) ∧ idx ∉ o0.polls) ∧
    ∀ o ∈ trace, (∀ u ∈ o.pollUpdates, u.index ≠ idx) ∧ idx ∉ o.polls := by
  obtain ⟨-, -, h3, h4⟩ := visibleCycle_coalesce_aux hwf hvalid hset h0
  have hidx : idx < st.monitors.length := hvalid _ (lastFor_mem hset)
  obtain ⟨m0, hm0⟩ : ∃ m0, st.monitors[idx]? = some m0 :=
    ⟨_, List.getElem?_eq_getElem hidx⟩
  obtain ⟨-, hpolls⟩ := visibleCycle_coalesce_extra hwf hvalid hset hm0 h0
  constructor
  · refine ⟨?_, hpolls⟩
    intro u hu
    have := List.filter_eq_nil_iff.mp h3 u hu
    simpa using this
  · exact runWorker_cooldown (visibleCycle_wf hwf h0).1 ⟨T, h4, Nat.le_refl T⟩ hins hrun

/-- C5: while the visibility flag is false the worker performs zero
hardware polls, and every `SetBrightness` command received while hidden
still results in exactly one `set()` call and exactly one echoed Update
for its device. -/
theorem claim_C5_visibility_gating {st : WorkerState} {inputs : List StepInput}
    {trace : List StepOut}
    (hh : ∀ inp ∈ inputs, inp.visible = false)
    (hr : runWorker st inputs = some trace) :
    (∀ o ∈ trace, o.polls = []) ∧
    (∀ p ∈ inputs.zip trace, ∀ c, p.1.recv = RecvResult.cmd c →
       p.2.setCalls = [(c.index, c.value)] ∧ p.2.updates = [⟨c.index, c.value⟩]) :=
  runWorker_hidden hh hr

/-- C6: once the command queue reports disconnection (the sender was
dropped), the worker invokes device cleanup exactly once, terminates, and
emits no Update in or after the terminating iteration: the trace ends at
the disconnection step. -/
theorem claim_C6_shutdown {st : WorkerState} {pre : List StepInput} {d : StepInput}
    {post : List StepInput} {trace : List StepOut}
    (hpre : ∀ inp ∈ pre, signalsDisconnect inp = false)
    (hd : signalsDisconnect d = true)
    (hr : runWorker st (pre ++ d :: post) = some trace) :
    (trace.map StepOut.cleanups).sum = 1 ∧
    trace.length = pre.length + 1 ∧
    ∃ last, trace.getLast? = some last ∧ last.terminated = true ∧ last.updates = [] :=
  runWorker_shutdown hpre hd hr

/-- C7: if the UI marked device `idx` as interacting at time `T` and the
cooldown window is still open at drain time (`now - T < USER_COOLDOWN`),
every Update drained this frame is discarded for `idx`: the displayed
brightness for `idx` is unchanged by the whole drain. -/
theorem claim_C7_presentation_suppression {now T idx : Nat} {st : UIState}
    {us : List MonitorUpdate}
    (h1 : st.user_cooldowns.getD idx none = some T)
    (h2 : now - T < USER_COOLDOWN) :
    (applyUpdates now st us).brightness_values[idx]? = st.brightness_values[idx]? :=
  applyUpdates_suppressed h1 h2

/-- C8: if device enumeration finds no devices (the only enumeration
failure on this platform), `TrayBrightUI::new` fails — the error is
propagated and no UI snapshot or worker state is ever constructed, so no
worker thread is started. -/
theorem claim_C8_enumeration_failure (backlights ddcs : List Monitor)
    (hw : Nat → Option (Nat × Nat)) (now0 : Nat)
    (h : backlights ++ ddcs = []) :
    TrayBrightUI.new backlights ddcs hw now0 = none := by
  unfold TrayBrightUI.new get_monitors
  rw [h]
  rfl

/-- C9 counterexample: on a backlight device with unpopulated bounds and
raw range 200, `set_brightness(50)` writes 100 to the hardware file — the
raw-scaled value — not `clamp(50, 0, 100) = 50`, refuting the claim that
the value written to hardware is `clamp(v, 0, 100)`. -/
theorem claim_C9_counterexample :
    (Monitor.set_brightness ⟨"bl", none, none, none, MonitorBackend.backlight "card0"⟩
      50 ⟨some 200, true⟩).hwAttempt = some 100 ∧
    rustClamp 50 0 100 = 50 ∧ (some 100 : Option Nat) ≠ some 50 := by
  exact ⟨by decide, by decide, by decide⟩

/-- C9 amended: when a device's cached min/max are unpopulated, the
defaults 0 and 100 are substituted, so the brightness used for the
hardware call is `clamp(v, 0, 100)`: the DDC and Windows backends pass
exactly this value to the hardware call, while the Linux backlight
backend writes it converted to the device raw scale,
`clamp(v, 0, 100) * max_raw / 100`. -/
theorem claim_C9_default_bounds_amended {v : Nat} {hw : SetHw} {m : Monitor}
    (hmn : m.min_brightness = none) (hmx : m.max_brightness = none) :
    (∀ d, m.backend = MonitorBackend.ddc d →
       (m.set_brightness v hw).hwAttempt = some (rustClamp v 0 100)) ∧
    (∀ p maxRaw, m.backend = MonitorBackend.backlight p → hw.backlightMaxRaw = some maxRaw →
       (m.set_brightness v hw).hwAttempt = some (rustClamp v 0 100 * maxRaw / 100)) ∧
    (∀ (wm : WinMonitor) (hwOk : Bool), wm.min_brightness = none → wm.max_brightness = none →
       (wm.set_brightness v hwOk).2 = rustClamp v 0 100) := by
  refine ⟨?_, ?_, ?_⟩
  · intro d hb
    have hatt := set_brightness_ddc_attempt m v hw hb
    rw [hmn, hmx] at hatt
    exact hatt
  · intro p maxRaw hb hraw
    unfold Monitor.set_brightness
    rw [hb, hmn, hmx, hraw]
    dsimp only
    split <;> rfl
  · intro wm hwOk h1 h2
    unfold WinMonitor.set_brightness
    rw [h1, h2]
    dsimp only
    split <;> rfl

/-- C10: every command the UI can send carries an index below the monitor
count, so the worker's indexing never goes out of bounds: the drain into
the pending table succeeds (no panic), and the hidden-branch processing
of any such command succeeds, with the cooldown write also in bounds. -/
theorem claim_C10_index_safety (count : Nat) (frames : List (Nat → Option Nat))
    (st : WorkerState) (now : Nat) (setHw : Nat → SetHw)
    (hcount : st.monitors.length = count)
    (hcd : st.cooldowns.length = count) :
    (∀ c ∈ (frames.map (uiFrameCommands count)).flatten, c.index < count) ∧
    (drainCommands ((frames.map (uiFrameCommands count)).flatten)
        (List.replicate count none)).isSome = true ∧
    (∀ c ∈ (frames.map (uiFrameCommands count)).flatten,
       (hiddenStep st now (RecvResult.cmd c) setHw).isSome = true ∧
       c.index < st.cooldowns.length) := by
  have hval : ∀ c ∈ (frames.map (uiFrameCommands count)).flatten, c.index < count := by
    intro c hc
    rcases List.mem_flatten.mp hc with ⟨l, hl, hcl⟩
    rcases List.mem_map.mp hl with ⟨f, hf, hfl⟩
    subst hfl
    exact uiFrameCommands_valid count f c hcl
  refine ⟨hval, ?_, ?_⟩
  · exact drainCommands_isSome
      (fun c hc => by rw [List.length_replicate]; exact hval c hc)
  · intro c hc
    constructor
    · simp only [hiddenStep]
      rw [dif_pos (by rw [hcount]; exact hval c hc)]
      rfl
    · rw [hcd]
      exact hval c hc

/-- Test fixture: a DDC monitor with populated bounds. -/
def wmA : Monitor := ⟨"A", some 0, some 50, some 100, MonitorBackend.ddc 1⟩

/-- Test fixture: a second DDC monitor. -/
def wmB : Monitor := ⟨"B", some 0, some 40, some 100, MonitorBackend.ddc 2⟩

/-- Test fixture: a backlight monitor with unpopulated bounds. -/
def wmBL : Monitor := ⟨"bl", none, none, none, MonitorBackend.backlight "card0"⟩

/-- Test fixture: a backlight monitor with populated bounds. -/
def wmBL2 : Monitor := ⟨"bl2", some 0, some 50, some 100, MonitorBackend.backlight "card1"⟩

/-- Test fixture: a two-monitor worker state with clear cooldowns. -/
def wSt : WorkerState := ⟨[wmA, wmB], [none, none], 0⟩

/-- Test fixture: a one-monitor backlight worker state. -/
def wStBL : WorkerState := ⟨[wmBL2], [none], 0⟩

/-- Test fixture: hardware oracle with backlight raw range 200, writes
succeeding. -/
def wSetRaw200 : Nat → SetHw := fun _ => ⟨some 200, true⟩

/-- Test fixture: hardware oracle where every set call succeeds. -/
def wSetOk : Nat → SetHw := fun _ => ⟨some 100, true⟩

/-- Test fixture: hardware oracle where every set call fails. -/
def wSetFail : Nat → SetHw := fun _ => ⟨some 100, false⟩

/-- Test fixture: hardware oracle where every poll succeeds. -/
def wPoll : Nat → Option (Nat × Nat) := fun i => some (60 + i, 100)

/-- Test fixture: hardware oracle where polling device 0 fails. -/
def wPollFail0 : Nat → Option (Nat × Nat) :=
  fun i => if i = 0 then none else some (60 + i, 100)

/-- Test fixture: a hidden iteration receiving one command. -/
def wInCmd : StepInput := ⟨false, 5, RecvResult.cmd ⟨0, 33⟩, [], false, wSetOk, wPoll⟩

/-- Test fixture: a hidden iteration that times out. -/
def wInTimeout : StepInput := ⟨false, 6, RecvResult.timeout, [], false, wSetOk, wPoll⟩

/-- Test fixture: a hidden iteration observing disconnection. -/
def wInDisc : StepInput := ⟨false, 7, RecvResult.disconnected, [], false, wSetOk, wPoll⟩

/-- Test fixture: a slider frame releasing device 0 at value 70. -/
def wFrame : Nat → Option Nat := fun i => if i = 0 then some 70 else none

/-- C1 witness: three commands for device 0 coalesce to one `set(0, 80)`
call and one Update `{0, 80}`. -/
theorem claim_C1_coalescing_witness :
    lastFor 0 [⟨0, 10⟩, ⟨0, 150⟩, ⟨0, 80⟩] = some 80 ∧
    (visibleCycle wSt 0 [⟨0, 10⟩, ⟨0, 150⟩, ⟨0, 80⟩] false wSetOk wPoll).map
      (fun o => (o.setCalls.filter (fun s => s.1 == 0),
                 o.updates.filter (fun u => u.index == 0))) =
      some ([(0, 80)], [⟨0, 80⟩]) := by
  refine ⟨by decide, ?_⟩
  cases hcy : visibleCycle wSt 0 [⟨0, 10⟩, ⟨0, 150⟩, ⟨0, 80⟩] false wSetOk wPoll with
  | none => exact absurd hcy (by decide)
  | some o =>
      obtain ⟨h1, h2⟩ := claim_C1_coalescing (by decide) (by decide)
        (show lastFor 0 [⟨0, 10⟩, ⟨0, 150⟩, ⟨0, 80⟩] = some 80 by decide) hcy
      show some (o.setCalls.filter (fun s => s.1 == 0),
                 o.updates.filter (fun u => u.index == 0)) =
           some ([(0, 80)], [⟨0, 80⟩])
      rw [h1, h2]

/-- C2 witness: the out-of-range command 150 reaches hardware as
`clamp(150, 0, 100)` on a DDC device and as
`clamp(150, 0, 100) * max_raw / 100` on a backlight device with raw
range 200, while the echo carries the raw 150 in both cases. -/
theorem claim_C2_clamping_amended_witness :
    lastFor 0 [⟨0, 150⟩] = some 150 ∧
    wmA.backend = MonitorBackend.ddc 1 ∧
    wmBL2.backend = MonitorBackend.backlight "card1" ∧
    (visibleCycle wSt 0 [⟨0, 150⟩] false wSetOk wPoll).map
      (fun o => (o.hwWrites.filter (fun s => s.1 == 0),
                 o.updates.filter (fun u => u.index == 0))) =
      some ([(0, rustClamp 150 0 100)], [⟨0, 150⟩]) ∧
    (visibleCycle wStBL 0 [⟨0, 150⟩] false wSetRaw200 wPoll).map
      (fun o => (o.hwWrites.filter (fun s => s.1 == 0),
                 o.updates.filter (fun u => u.index == 0))) =
      some ([(0, rustClamp 150 0 100 * 200 / 100)], [⟨0, 150⟩]) := by
  refine ⟨by decide, by decide, by decide, ?_, ?_⟩
  · cases hcy : visibleCycle wSt 0 [⟨0, 150⟩] false wSetOk wPoll with
    | none => exact absurd hcy (by decide)
    | some o =>
        obtain ⟨hd, -, he⟩ := claim_C2_clamping_amended (by decide) (by decide)
          (show lastFor 0 [⟨0, 150⟩] = some 150 by decide)
          (show wSt.monitors[0]? = some wmA by decide)
          (show wmA.min_brightness = some 0 by decide)
          (show wmA.max_brightness = some 100 by decide) hcy
        show some (o.hwWrites.filter (fun s => s.1 == 0),
                   o.updates.filter (fun u => u.index == 0)) =
             some ([(0, rustClamp 150 0 100)], [⟨0, 150⟩])
        rw [hd 1 (by decide), he]
  · cases hcy : visibleCycle wStBL 0 [⟨0, 150⟩] false wSetRaw200 wPoll with
    | none => exact absurd hcy (by decide)
    | some o =>
        obtain ⟨-, hbl, he⟩ := claim_C2_clamping_amended (by decide) (by decide)
          (show lastFor 0 [⟨0, 150⟩] = some 150 by decide)
          (show wStBL.monitors[0]? = some wmBL2 by decide)
          (show wmBL2.min_brightness = some 0 by decide)
          (show wmBL2.max_brightness = some 100 by decide) hcy
        show some (o.hwWrites.filter (fun s => s.1 == 0),
                   o.updates.filter (fun u => u.index == 0)) =
             some ([(0, rustClamp 150 0 100 * 200 / 100)], [⟨0, 150⟩])
        rw [hbl "card1" 200 (by decide) (by decide), he]

/-- C3 witness: a cycle where polling device 0 fails and the set on
device 1 fails — device 0 gets no Update, while device 1 still gets its
echo and the loop continues. -/
theorem claim_C3_transient_amended_witness :
    lastFor 0 [⟨1, 30⟩] = none ∧
    wPollFail0 0 = none ∧
    lastFor 1 [⟨1, 30⟩] = some 30 ∧
    (visibleCycle wSt 6000 [⟨1, 30⟩] false wSetFail wPollFail0).map
      (fun o => (o.updates.filter (fun u => u.index == 0),
                 o.echoes.filter (fun u => u.index == 1), o.terminated)) =
      some ([], [⟨1, 30⟩], false) := by
  refine ⟨by decide, by decide, by decide, ?_⟩
  cases hcy : visibleCycle wSt 6000 [⟨1, 30⟩] false wSetFail wPollFail0 with
  | none => exact absurd hcy (by decide)
  | some o =>
      obtain ⟨hA, hB⟩ := claim_C3_transient_amended (by decide) (by decide) hcy
      obtain ⟨ha1, -, -⟩ := hA 0 (by decide) (by decide) (by decide)
      obtain ⟨hb1, hb2⟩ := hB 1 30 (by decide)
      show some (o.updates.filter (fun u => u.index == 0),
                 o.echoes.filter (fun u => u.index == 1), o.terminated) =
           some ([], [⟨1, 30⟩], false)
      rw [ha1, hb1, hb2]

/-- C4 witness: a `set(0, 42)` at time 10000 in a cycle whose poll step
runs — device 1 is polled, device 0 is skipped and produces no
poll-derived Update. -/
theorem claim_C4_write_cooldown_witness :
    lastFor 0 [⟨0, 42⟩] = some 42 ∧
    (visibleCycle wSt 10000 [⟨0, 42⟩] false wSetOk wPoll).map
      (fun o0 => (o0.pollUpdates.filter (fun u => u.index == 0),
                  decide (0 ∈ o0.polls))) = some ([], false) := by
  refine ⟨by decide, ?_⟩
  cases hcy : visibleCycle wSt 10000 [⟨0, 42⟩] false wSetOk wPoll with
  | none => exact absurd hcy (by decide)
  | some o0 =>
      obtain ⟨⟨hupd, hpolls⟩, -⟩ := claim_C4_write_cooldown (by decide) (by decide)
        (show lastFor 0 [⟨0, 42⟩] = some 42 by decide) hcy (by simp)
        (rfl : runWorker o0.state [] = some [])
      show some (o0.pollUpdates.filter (fun u => u.index == 0),
                 decide (0 ∈ o0.polls)) = some ([], false)
      rw [List.filter_eq_nil_iff.mpr (fun u hu => by simpa using hupd u hu),
        decide_eq_false hpolls]

/-- C5 witness: a hidden run of one command and one timeout performs no
polls in any iteration. -/
theorem claim_C5_visibility_gating_witness :
    wInCmd.visible = false ∧ wInTimeout.visible = false ∧
    ((runWorker wSt [wInCmd, wInTimeout]).getD []).all
      (fun o => o.polls.isEmpty) = true := by
  refine ⟨rfl, rfl, ?_⟩
  have hh : ∀ inp ∈ [wInCmd, wInTimeout], inp.visible = false := by
    intro inp hi
    rcases List.mem_cons.mp hi with h | h
    · subst h; rfl
    · rcases List.mem_cons.mp h with h2 | h2
      · subst h2; rfl
      · exact absurd h2 (List.not_mem_nil _)
  cases hr : runWorker wSt [wInCmd, wInTimeout] with
  | none => exact absurd hr (by decide)
  | some trace =>
      obtain ⟨hp, -⟩ := claim_C5_visibility_gating hh hr
      show trace.all (fun o => o.polls.isEmpty) = true
      rw [List.all_eq_true]
      intro o ho
      show o.polls.isEmpty = true
      rw [hp o ho]
      rfl

/-- C6 witness: a timeout iteration followed by a disconnection gives a
trace of length 2 with exactly one cleanup. -/
theorem claim_C6_shutdown_witness :
    signalsDisconnect wInTimeout = false ∧
    signalsDisconnect wInDisc = true ∧
    (runWorker wSt ([wInTimeout] ++ wInDisc :: [])).map
      (fun t => ((t.map StepOut.cleanups).sum, t.length)) = some (1, 2) := by
  refine ⟨by decide, by decide, ?_⟩
  have hpre : ∀ inp ∈ [wInTimeout], signalsDisconnect inp = false := by
    intro inp hi
    rcases List.mem_cons.mp hi with h | h
    · subst h; decide
    · exact absurd h (List.not_mem_nil _)
  cases hr : runWorker wSt ([wInTimeout] ++ wInDisc :: []) with
  | none => exact absurd hr (by decide)
  | some trace =>
      obtain ⟨h1, h2, -⟩ := claim_C6_shutdown hpre (by decide) hr
      show some ((trace.map StepOut.cleanups).sum, trace.length) = some (1, 2)
      rw [h1, h2]
      rfl

/-- C7 witness: with an interaction cooldown started at 90 and a drain at
time 100, the incoming Update for device 0 does not change its displayed
value. -/
theorem claim_C7_presentation_suppression_witness :
    ([some 90, none] : List (Option Nat)).getD 0 none = some 90 ∧
    100 - 90 < USER_COOLDOWN ∧
    (applyUpdates 100 ⟨[5, 6], [some 90, none]⟩
        [⟨0, 50⟩, ⟨1, 70⟩]).brightness_values[0]? = ([5, 6] : List Nat)[0]? :=
  ⟨rfl, by decide,
   @claim_C7_presentation_suppression 100 90 0 ⟨[5, 6], [some 90, none]⟩
     [⟨0, 50⟩, ⟨1, 70⟩] rfl (by decide)⟩

/-- C8 witness: enumeration that finds no devices makes construction
fail. -/
theorem claim_C8_enumeration_failure_witness :
    ([] : List Monitor) ++ [] = [] ∧
    TrayBrightUI.new [] [] (fun _ => none) 0 = none :=
  ⟨rfl, claim_C8_enumeration_failure [] [] (fun _ => none) 0 rfl⟩

/-- C9 witness: a backlight device with unpopulated bounds and raw range
200 clamps 150 to the default range and writes the raw-scaled value. -/
theorem claim_C9_default_bounds_amended_witness :
    wmBL.min_brightness = none ∧ wmBL.max_brightness = none ∧
    (wmBL.set_brightness 150 ⟨some 200, true⟩).hwAttempt =
      some (rustClamp 150 0 100 * 200 / 100) :=
  ⟨rfl, rfl,
   (@claim_C9_default_bounds_amended 150 ⟨some 200, true⟩ wmBL rfl rfl).2.1
     "card0" 200 rfl rfl⟩

/-- C10 witness: one UI frame over two monitors produces only in-bounds
commands, and the drain into a two-slot pending table succeeds. -/
theorem claim_C10_index_safety_witness :
    wSt.monitors.length = 2 ∧ wSt.cooldowns.length = 2 ∧
    (drainCommands (([wFrame].map (uiFrameCommands 2)).flatten)
        (List.replicate 2 none)).isSome = true :=
  ⟨rfl, rfl, (claim_C10_index_safety 2 [wFrame] wSt 0 wSetOk rfl rfl).2.1⟩

end TrayBright
